import Mathlib

/-!
Kitab-Ghar: the catalog manager and blob store of `script.js`

A shallow embedding of the state-changing functions of `src/e book/script.js`, of its
filter and sort, of the submit handler of its book form, of `saveAccountData`, and of the
login handler of `src/e book/auth.js`.

* The global variables `books`, `categories` and `db`, and the two `localStorage`
  entries written by `saveToLocalStorage` and `saveCategories`, are the fields of `State`;
  the variable `adminProfile` and the entries `adminProfile` and `currentUser` are the
  fields of `Account`.
* A promise is modelled by its settlement: `Except String α` (`error` = rejected).
* What the browser decides is an explicit argument: the answer to `confirm(...)`, the
  readings of `Date.now()`, `Math.random()` and `new Date()` (`Env`), the firing of an
  IndexedDB `request.onerror` (`fault`), the values of the form controls, and the
  built-ins `String.prototype.toLowerCase` and `String.prototype.localeCompare` (the
  arguments `toLowerCase` and `localeCompare`, whose Unicode tables are not part of the
  repository).
* Rendering (`renderBooks`, `updateStats`, `renderCategoriesPage`, ...) writes to the DOM
  only and is left out of the state; `applyFilters` is the list it passes to `renderBooks`.
-/

namespace KitabGhar

/-! ## JavaScript values and string helpers -/

/-- Truthiness of a JavaScript value that is a string, `null` or `undefined`
(`none`): only a non-empty string is truthy. -/
def truthy : Option String → Bool
  | some s => s != ""
  | none => false

/-- The expression `v || null` for a value that is a string, `null` or `undefined`. -/
def orNull (v : Option String) : Option String :=
  if truthy v then v else none

/-- The expression `v || d` where `d` is a string. -/
def orElse (v : Option String) (d : String) : String :=
  match v with
  | some s => if s != "" then s else d
  | none => d

/-- The characters removed by `String.prototype.trim`: ECMAScript `WhiteSpace`
(TAB, VT, FF, ZWNBSP and the Unicode category Zs) and `LineTerminator`
(LF, CR, LS, PS). -/
def isJsWhiteSpace (c : Char) : Bool :=
  let n := c.toNat
  n == 0x09 || n == 0x0A || n == 0x0B || n == 0x0C || n == 0x0D || n == 0x20 ||
  n == 0xA0 || n == 0x1680 || (0x2000 ≤ n && n ≤ 0x200A) || n == 0x2028 ||
  n == 0x2029 || n == 0x202F || n == 0x205F || n == 0x3000 || n == 0xFEFF

/-- The method `String.prototype.trim`, on the list of characters. -/
def trimChars (cs : List Char) : List Char :=
  ((cs.dropWhile isJsWhiteSpace).reverse.dropWhile isJsWhiteSpace).reverse

/-- The method `String.prototype.trim`. -/
def jsTrim (s : String) : String :=
  ⟨trimChars s.data⟩

/-- Lowercasing of the ASCII letters only: the instance of `toLowerCase` at which the
functions below are evaluated on concrete inputs. -/
def asciiLower (s : String) : String :=
  ⟨s.data.map Char.toLower⟩

/-- What the functions below need of `String.prototype.toLowerCase`: it leaves a string of
ASCII characters without capital letters as it is, and a lowercased, trimmed string is
left as it is by lowercasing it again. -/
structure LowerCaseLaws (toLowerCase : String → String) : Prop where
  fixes_ascii : ∀ s : String, (∀ c ∈ s.data, c.toNat < 128 ∧ c.isUpper = false) →
    toLowerCase s = s
  stable : ∀ s : String, toLowerCase (jsTrim (toLowerCase s)) = jsTrim (toLowerCase s)

/-- The digit of a base-36 numeral: `0`..`9`, then `a`..`z`. -/
def digit36 (d : Nat) : Char :=
  if d < 10 then Char.ofNat (48 + d) else Char.ofNat (87 + d)

/-- The digits of `n` in base 36, most significant first, in front of `acc`. -/
def digits36 : Nat → Nat → List Char → List Char
  | 0, _, acc => acc
  | fuel + 1, n, acc =>
    if n < 36 then digit36 n :: acc
    else digits36 fuel (n / 36) (digit36 (n % 36) :: acc)

/-- The call `n.toString(36)` for a non-negative integer `n`. -/
def toString36 (n : Nat) : String :=
  ⟨digits36 (n + 1) n []⟩

/-- The readings of the clock and of the random generator during one call. -/
structure Env where
  /-- The value of `Date.now()`: milliseconds since the epoch. -/
  dateNow : Nat
  /-- The base-36 digits of `Math.random().toString(36).substr(2)`, the digits after
  `0.` (none when the draw is `0`). -/
  mathRandom : List (Fin 36)
  /-- The timestamp of `new Date()`. -/
  newDate : Int
deriving DecidableEq, Repr

/-- The function `generateId`:
`Date.now().toString(36) + Math.random().toString(36).substr(2)`. -/
def generateId (env : Env) : String :=
  toString36 env.dateNow ++ ⟨env.mathRandom.map (fun d => digit36 d.val)⟩

/-- A JavaScript number that is an integer or an infinity: the values that a page count
can take (`NaN` is `none` where it can occur). -/
inductive JsNumber
  | int (n : Int)
  | posInf
  | negInf
deriving DecidableEq, Repr

instance (n : Nat) : OfNat JsNumber n :=
  ⟨.int n⟩

instance : Neg JsNumber :=
  ⟨fun x =>
    match x with
    | .int n => .int (-n)
    | .posInf => .negInf
    | .negInf => .posInf⟩

/-! ## Data model -/

/-- A book record of the array `books`. -/
structure Book where
  id : String
  title : String
  author : String
  category : String
  /-- A number or `null`. -/
  pages : Option JsNumber
  /-- A file name or `null`. -/
  pdfName : Option String
  /-- A key of the image store or `null`. -/
  coverId : Option String
  favorite : Bool
  /-- The timestamp of the `Date`. -/
  dateAdded : Int
deriving DecidableEq, Repr

/-- The argument `bookData` of `addBook`; `none` is a property that is missing or
`null`. -/
structure BookData where
  id : Option String
  title : String
  author : String
  category : String
  pages : Option JsNumber
  pdfName : Option String
  coverId : Option String
  /-- Not read by `addBook`. -/
  favorite : Option Bool
deriving DecidableEq, Repr

/-- The argument `bookData` of `updateBook`: for each property, `none` when the object does
not have it and `some v` when it has it with value `v`. -/
structure BookPatch where
  id : Option String
  title : Option String
  author : Option String
  category : Option String
  pages : Option (Option JsNumber)
  pdfName : Option (Option String)
  coverId : Option (Option String)
  favorite : Option Bool
  dateAdded : Option Int
deriving DecidableEq, Repr

/-- The object spread `{ ...book, ...bookData }`. -/
def mergeBook (book : Book) (bookData : BookPatch) : Book where
  id := bookData.id.getD book.id
  title := bookData.title.getD book.title
  author := bookData.author.getD book.author
  category := bookData.category.getD book.category
  pages := bookData.pages.getD book.pages
  pdfName := bookData.pdfName.getD book.pdfName
  coverId := bookData.coverId.getD book.coverId
  favorite := bookData.favorite.getD book.favorite
  dateAdded := bookData.dateAdded.getD book.dateAdded

/-- A `File` chosen in a file input. -/
structure JsFile where
  name : String
  type : String
  size : Nat
  bytes : List Nat
deriving DecidableEq, Repr

/-- A record of the object store `pdfs` (key path `id`). -/
structure PdfRecord where
  id : String
  bookId : String
  fileName : String
  fileType : String
  fileSize : Nat
  blob : JsFile
  uploadedAt : Int
deriving DecidableEq, Repr

/-- A record of the object store `images` (key path `id`). -/
structure ImageRecord where
  id : String
  fileName : String
  fileType : String
  blob : JsFile
  uploadedAt : Int
deriving DecidableEq, Repr

/-- The opened database `EBookDatabase` with its two object stores. -/
structure Db where
  pdfs : List PdfRecord
  images : List ImageRecord
deriving DecidableEq, Repr

/-- The global state of `script.js` that the catalog functions read and write. -/
structure State where
  /-- The variable `books`. -/
  books : List Book
  /-- The variable `categories`. -/
  categories : List String
  /-- The variable `db`: `none` until `initDatabase` has succeeded. -/
  db : Option Db
  /-- The entry `ebookLibrary` of `localStorage`: the list whose JSON text the entry holds
  (in that text an infinite page count is written as `null`). -/
  lsBooks : Option (List Book)
  /-- The entry `ebookCategories` of `localStorage`. -/
  lsCategories : Option (List String)
deriving DecidableEq, Repr

/-! ## Blob store -/

/-- The settlement of a promise: `ok v` when resolved with `v`, `error e` when rejected
with `e`. -/
abbrev Promise (α : Type) := Except String α

/-- The method `objectStore.put(record)` on a store with key path `id`: the record
replaces the one stored under its key, if any. -/
def storePut {α : Type} (key : α → String) (record : α) (store : List α) : List α :=
  record :: store.filter (fun r => key r != key record)

/-- The method `objectStore.get(k)`: the record under the key, `none` (the result
`undefined`) when there is none. -/
def storeGet {α : Type} (key : α → String) (k : String) (store : List α) : Option α :=
  store.find? (fun r => key r == k)

/-- The method `objectStore.delete(k)`. -/
def storeDelete {α : Type} (key : α → String) (k : String) (store : List α) : List α :=
  store.filter (fun r => key r != k)

/-- The function `storePDF`. `fault` is `some e` when the request ends in `onerror` with
error `e`; `now` is the timestamp of `new Date()`. Returns the settlement and the
database afterwards. -/
def storePDF (fault : Option String) (now : Int) (bookId : String) (pdfFile : JsFile)
    (db : Option Db) : Promise String × Option Db :=
  match db with
  | none => (.error "Database not initialized", none)
  | some d =>
    let pdfData : PdfRecord :=
      { id := bookId, bookId := bookId, fileName := pdfFile.name, fileType := pdfFile.type,
        fileSize := pdfFile.size, blob := pdfFile, uploadedAt := now }
    match fault with
    | some e => (.error e, some d)
    | none => (.ok bookId, some { d with pdfs := storePut PdfRecord.id pdfData d.pdfs })

/-- The function `getPDF`; `ok none` is the result `undefined` of a key that is not
stored. -/
def getPDF (fault : Option String) (bookId : String) (db : Option Db) :
    Promise (Option PdfRecord) :=
  match db with
  | none => .error "Database not initialized"
  | some d =>
    match fault with
    | some e => .error e
    | none => .ok (storeGet PdfRecord.id bookId d.pdfs)

/-- The function `deletePDF`. -/
def deletePDF (fault : Option String) (bookId : String) (db : Option Db) :
    Promise Unit × Option Db :=
  match db with
  | none => (.error "Database not initialized", none)
  | some d =>
    match fault with
    | some e => (.error e, some d)
    | none => (.ok (), some { d with pdfs := storeDelete PdfRecord.id bookId d.pdfs })

/-- The function `storeImage`. -/
def storeImage (fault : Option String) (now : Int) (id : String) (imageFile : JsFile)
    (db : Option Db) : Promise String × Option Db :=
  match db with
  | none => (.error "Database not initialized", none)
  | some d =>
    let imageData : ImageRecord :=
      { id := id, fileName := imageFile.name, fileType := imageFile.type,
        blob := imageFile, uploadedAt := now }
    match fault with
    | some e => (.error e, some d)
    | none => (.ok id, some { d with images := storePut ImageRecord.id imageData d.images })

/-- The function `getImage`: it resolves with `null` (`ok none`) both when the database
is not open and when the request fails. -/
def getImage (fault : Option String) (id : String) (db : Option Db) :
    Promise (Option ImageRecord) :=
  match db with
  | none => .ok none
  | some d =>
    match fault with
    | some _ => .ok none
    | none => .ok (storeGet ImageRecord.id id d.images)

/-- The function `deleteImage`. -/
def deleteImage (fault : Option String) (id : String) (db : Option Db) :
    Promise Unit × Option Db :=
  match db with
  | none => (.error "Database not initialized", none)
  | some d =>
    match fault with
    | some e => (.error e, some d)
    | none => (.ok (), some { d with images := storeDelete ImageRecord.id id d.images })

/-! ## Catalog manager -/

/-- The function `saveToLocalStorage`. -/
def saveToLocalStorage (s : State) : State :=
  { s with lsBooks := some s.books }

/-- The constant `defaultCategories`. -/
def defaultCategories : List String :=
  ["fiction", "non-fiction", "science", "technology", "business"]

/-- The function `saveCategories`. -/
def saveCategories (s : State) : State :=
  { s with lsCategories := some s.categories }

/-- The function `loadCategories`. -/
def loadCategories (s : State) : State :=
  match s.lsCategories with
  | some stored => { s with categories := stored }
  | none => saveCategories { s with categories := defaultCategories }

/-- The function `addCategory`, with its return value. -/
def addCategory (toLowerCase : String → String) (name : String) (s : State) :
    Bool × State :=
  let cleanName := jsTrim (toLowerCase name)
  if cleanName != "" && !s.categories.contains cleanName then
    (true, saveCategories { s with categories := s.categories ++ [cleanName] })
  else
    (false, s)

/-- The function `deleteCategory`; `confirmed` is the answer to `confirm(...)`. -/
def deleteCategory (confirmed : Bool) (name : String) (s : State) : State :=
  if confirmed then
    saveCategories { s with categories := s.categories.filter (fun c => c != name) }
  else
    s

/-- The object `newBook` built by `addBook`. -/
def newBook (env : Env) (bookData : BookData) : Book where
  id := orElse bookData.id (generateId env)
  title := bookData.title
  author := bookData.author
  category := bookData.category
  pages := bookData.pages
  pdfName := orNull bookData.pdfName
  coverId := orNull bookData.coverId
  favorite := false
  dateAdded := env.newDate

/-- The function `addBook`. -/
def addBook (env : Env) (bookData : BookData) (s : State) : State :=
  saveToLocalStorage { s with books := newBook env bookData :: s.books }

/-- The function `updateBook`. -/
def updateBook (id : String) (bookData : BookPatch) (s : State) : State :=
  match s.books.findIdx? (fun book => book.id == id) with
  | none => s
  | some index =>
    match s.books[index]? with
    | none => s
    | some old =>
      saveToLocalStorage { s with books := s.books.set index (mergeBook old bookData) }

/-- The function `deleteBook`; `confirmed` is the answer to `confirm(...)`, `pdfFault` and
`coverFault` are the faults of the two delete requests. The rejections of `deletePDF` and
`deleteImage` are caught and only logged. -/
def deleteBook (confirmed : Bool) (pdfFault coverFault : Option String) (id : String)
    (s : State) : State :=
  if confirmed then
    let book := s.books.find? (fun b => b.id == id)
    let db1 :=
      match book with
      | some b => if truthy b.pdfName then (deletePDF pdfFault id s.db).2 else s.db
      | none => s.db
    let db2 :=
      match book with
      | some b =>
        match b.coverId with
        | some c => if c != "" then (deleteImage coverFault c db1).2 else db1
        | none => db1
      | none => db1
    saveToLocalStorage
      { s with books := s.books.filter (fun book => book.id != id), db := db2 }
  else
    s

/-- The function `toggleFavorite`: the first book with the identifier is changed in
place. -/
def toggleFavorite (id : String) (s : State) : State :=
  match s.books.findIdx? (fun book => book.id == id) with
  | none => s
  | some index =>
    match s.books[index]? with
    | none => s
    | some book =>
      saveToLocalStorage
        { s with books := s.books.set index { book with favorite := !book.favorite } }

/-! ## Filter and sort -/

/-- The method `s.includes(t)`: `t` occurs in `s` as a run of consecutive characters. -/
def jsIncludes (s t : String) : Bool :=
  s.data.tails.any (fun u => t.data.isPrefixOf u)

/-- The method `Array.prototype.sort(compare)`: a stable sort that puts `a` before `b` when
`compare(a, b) <= 0`. For a comparator that is a total preorder this is the one result
ECMAScript allows. -/
def jsSort {α : Type} (compare : α → α → Int) (l : List α) : List α :=
  l.insertionSort (fun a b => compare a b ≤ 0)

/-- The callback of the search filter of `applyFilters`. -/
def searchMatches (toLowerCase : String → String) (searchTerm : String) (book : Book) :
    Bool :=
  jsIncludes (toLowerCase book.title) searchTerm ||
  jsIncludes (toLowerCase book.author) searchTerm ||
  jsIncludes (toLowerCase book.category) searchTerm ||
  (match book.pdfName with
    | some n => n != "" && jsIncludes (toLowerCase n) searchTerm
    | none => false)

/-- The function `applyFilters`: the list it hands to `renderBooks`. `searchInput`,
`categoryFilter` and `sortFilter` are the values of the three controls, `localeCompare` is
the built-in `String.prototype.localeCompare`. -/
def applyFilters (toLowerCase : String → String) (localeCompare : String → String → Int)
    (searchInput categoryFilter sortFilter : String) (books : List Book) : List Book :=
  let searchTerm := jsTrim (toLowerCase searchInput)
  let searched :=
    if searchTerm != "" then books.filter (searchMatches toLowerCase searchTerm) else books
  let filtered :=
    if categoryFilter != "all" then searched.filter (fun book => book.category == categoryFilter)
    else searched
  if sortFilter = "title" then
    jsSort (fun a b => localeCompare a.title b.title) filtered
  else if sortFilter = "author" then
    jsSort (fun a b => localeCompare a.author b.author) filtered
  else
    jsSort (fun a b => b.dateAdded - a.dateAdded) filtered

/-- What the sort needs of `String.prototype.localeCompare`: any two strings are comparable
and the comparison is transitive. -/
structure LocaleCompareLaws (localeCompare : String → String → Int) : Prop where
  total : ∀ a b : String, localeCompare a b ≤ 0 ∨ localeCompare b a ≤ 0
  trans : ∀ a b c : String, localeCompare a b ≤ 0 → localeCompare b c ≤ 0 →
    localeCompare a c ≤ 0

/-- Lexicographic comparison of two lists of character codes: `-1`, `0` or `1`. -/
def lexCompare : List Nat → List Nat → Int
  | [], [] => 0
  | [], _ :: _ => -1
  | _ :: _, [] => 1
  | a :: as, b :: bs => if a < b then -1 else if b < a then 1 else lexCompare as bs

/-- A comparison that ignores the case of ASCII letters: the instance of `localeCompare`
at which the functions are evaluated on concrete inputs. -/
def caseBlindCompare (a b : String) : Int :=
  lexCompare ((asciiLower a).data.map Char.toNat) ((asciiLower b).data.map Char.toNat)

/-- The books a search input and a category filter select, in the words of the
specification: the cleaned search term is empty or occurs in the lowercased title, author,
category or (when there is one) PDF file name, and the category filter is `all` or is the
category of the book. -/
def Selected (toLowerCase : String → String) (searchInput categoryFilter : String)
    (b : Book) : Prop :=
  (jsTrim (toLowerCase searchInput) = "" ∨
    (jsTrim (toLowerCase searchInput)).data <:+: (toLowerCase b.title).data ∨
    (jsTrim (toLowerCase searchInput)).data <:+: (toLowerCase b.author).data ∨
    (jsTrim (toLowerCase searchInput)).data <:+: (toLowerCase b.category).data ∨
    ∃ n, b.pdfName = some n ∧ n ≠ "" ∧
      (jsTrim (toLowerCase searchInput)).data <:+: (toLowerCase n).data) ∧
  (categoryFilter = "all" ∨ b.category = categoryFilter)

/-! ## The book form -/

/-- The value of a character as a digit in the given radix, if it is one. -/
def digitValue (radix : Nat) (c : Char) : Option Nat :=
  let n := c.toNat
  let v : Option Nat :=
    if 48 ≤ n ∧ n ≤ 57 then some (n - 48)
    else if 97 ≤ n ∧ n ≤ 122 then some (n - 87)
    else if 65 ≤ n ∧ n ≤ 90 then some (n - 55)
    else none
  match v with
  | some d => if d < radix then some d else none
  | none => none

/-- The values of the longest run of digits at the front of a list of characters. -/
def takeDigits (radix : Nat) : List Char → List Nat
  | [] => []
  | c :: cs =>
    match digitValue radix c with
    | some d => d :: takeDigits radix cs
    | none => []

/-- The number of binary digits of `n`, for `n` below `2 ^ fuel`. -/
def bitLength : Nat → Nat → Nat
  | 0, _ => 0
  | fuel + 1, n => if n = 0 then 0 else bitLength fuel (n / 2) + 1

/-- The integer that the double nearest to `n` denotes, for `n` within the range of the
doubles: `n` is cut to its 53 leading binary digits and rounded to the nearest such value,
to the even one when it lies half way. -/
def roundHalfEven (n : Nat) : Nat :=
  let bits := bitLength 1024 n
  if bits ≤ 53 then n
  else
    let e := bits - 53
    let q := n / 2 ^ e
    let r := n % 2 ^ e
    let half := 2 ^ (e - 1)
    let q2 := if half < r ∨ (r = half ∧ q % 2 = 1) then q + 1 else q
    q2 * 2 ^ e

/-- The least integer that rounds to `Infinity`: `2 ^ 1024 - 2 ^ 970`, half way between
the largest double and `2 ^ 1024`. -/
def infinityThreshold : Nat :=
  (2 ^ 256) ^ 4 - (2 ^ 256) ^ 3 * 2 ^ 202

/-- The Number value of a non-negative integer: the nearest double, which is `Infinity`
from `infinityThreshold` on. -/
def toDouble (n : Nat) : JsNumber :=
  if infinityThreshold ≤ n then .posInf else .int (roundHalfEven n)

/-- The sign at the front of a numeral: whether it is a minus sign, and the characters
after the sign. -/
def readSign (s0 : List Char) : Bool × List Char :=
  match s0 with
  | '-' :: r => (true, r)
  | '+' :: r => (false, r)
  | _ => (false, s0)

/-- The integer that the longest run of digits at the front denotes, hexadecimal after
`0x` and decimal otherwise; `none` when there is no digit. -/
def readDigits (s1 : List Char) : Option Nat :=
  let radixed : Nat × List Char :=
    match s1 with
    | '0' :: 'x' :: r => (16, r)
    | '0' :: 'X' :: r => (16, r)
    | _ => (10, s1)
  let z := takeDigits radixed.1 radixed.2
  if z.isEmpty then none
  else some (z.foldl (fun acc d => acc * radixed.1 + d) 0)

/-- The function `parseInt(string)` without a radix argument; `none` is `NaN`. Leading
white space is skipped, a sign is read, the numeral is hexadecimal after `0x` and decimal
otherwise, and it ends at the first character that is not a digit. The result is the
Number value of the integer that the numeral denotes, negated after a minus sign: the
nearest double, as the engines compute it, so an integer beyond 2^53 is rounded and a
numeral beyond the range of the doubles gives `Infinity`; `-0` is the integer `0` here,
both being falsy. -/
def parseInt (string : String) : Option JsNumber :=
  let signed := readSign (string.data.dropWhile isJsWhiteSpace)
  match readDigits signed.2 with
  | none => none
  | some mathInt => some (if signed.1 then -(toDouble mathInt) else toDouble mathInt)

/-- The expression `n || null` for a number: `NaN` and `0` are falsy, every other number,
the infinities included, is truthy. -/
def numberOrNull (n : Option JsNumber) : Option JsNumber :=
  match n with
  | some (.int v) => if v = 0 then none else some (.int v)
  | some .posInf => some .posInf
  | some .negInf => some .negInf
  | none => none

/-- The controls of the book form when it is submitted: the values of the text inputs and
the first file of each file input. -/
structure BookForm where
  bookTitle : String
  bookAuthor : String
  bookCategory : String
  bookPages : String
  bookPdf : Option JsFile
  bookCover : Option JsFile
deriving DecidableEq, Repr

/-- The object `formData` of the submit handler of the book form. -/
structure FormData where
  title : String
  author : String
  category : String
  pages : Option JsNumber
  pdfName : Option String
  coverId : Option String
deriving DecidableEq, Repr

/-- The object `formData` as the argument of `updateBook`: it has these six properties. -/
def FormData.toPatch (f : FormData) : BookPatch :=
  ⟨none, some f.title, some f.author, some f.category, some f.pages, some f.pdfName,
    some f.coverId, none, none⟩

/-- The key of the cover of a book: the template string `cover_` followed by the
identifier. -/
def coverKey (bookId : String) : String :=
  "cover_" ++ bookId

/-- The branch `if (editingBookId)` of the submit handler. A rejected `storePDF` or
`storeImage` is caught: the handler ends without `updateBook` and leaves the form open. -/
def submitEdit (env : Env) (pdfFault coverFault : Option String)
    (pdfFile coverFile : Option JsFile) (formData : FormData) (editingBookId : String)
    (s : State) : State × Option String :=
  let existingBook := s.books.find? (fun b => b.id == editingBookId)
  let pdfStep : Promise Unit × Option Db × FormData :=
    match pdfFile with
    | some f =>
      ((storePDF pdfFault env.newDate editingBookId f s.db).1.map (fun _ => ()),
        (storePDF pdfFault env.newDate editingBookId f s.db).2, formData)
    | none =>
      (.ok (), s.db,
        match existingBook with
        | some b => { formData with pdfName := b.pdfName }
        | none => formData)
  match pdfStep with
  | (.error _, db1, _) => ({ s with db := db1 }, some editingBookId)
  | (.ok _, db1, formData1) =>
    let coverStep : Promise Unit × Option Db × FormData :=
      match coverFile with
      | some f =>
        ((storeImage coverFault env.newDate (coverKey editingBookId) f db1).1.map
            (fun _ => ()),
          (storeImage coverFault env.newDate (coverKey editingBookId) f db1).2,
          { formData1 with coverId := some (coverKey editingBookId) })
      | none =>
        (.ok (), db1,
          match existingBook with
          | some b => { formData1 with coverId := b.coverId }
          | none => formData1)
    match coverStep with
    | (.error _, db2, _) => ({ s with db := db2 }, some editingBookId)
    | (.ok _, db2, formData2) =>
      (updateBook editingBookId formData2.toPatch { s with db := db2 }, none)

/-- The branch of the submit handler that adds a book. -/
def submitAdd (env : Env) (pdfFault coverFault : Option String)
    (pdfFile coverFile : Option JsFile) (formData : FormData) (editingBookId : Option String)
    (s : State) : State × Option String :=
  let newBookId := generateId env
  let pdfStep : Promise Unit × Option Db :=
    match pdfFile with
    | some f =>
      ((storePDF pdfFault env.newDate newBookId f s.db).1.map (fun _ => ()),
        (storePDF pdfFault env.newDate newBookId f s.db).2)
    | none => (.ok (), s.db)
  match pdfStep with
  | (.error _, db1) => ({ s with db := db1 }, editingBookId)
  | (.ok _, db1) =>
    let coverStep : Promise Unit × Option Db × FormData :=
      match coverFile with
      | some f =>
        ((storeImage coverFault env.newDate (coverKey newBookId) f db1).1.map (fun _ => ()),
          (storeImage coverFault env.newDate (coverKey newBookId) f db1).2,
          { formData with coverId := some (coverKey newBookId) })
      | none => (.ok (), db1, formData)
    match coverStep with
    | (.error _, db2, _) => ({ s with db := db2 }, editingBookId)
    | (.ok _, db2, formData2) =>
      (addBook env
          ⟨some newBookId, formData2.title, formData2.author, formData2.category,
            formData2.pages, formData2.pdfName, formData2.coverId, none⟩
          { s with db := db2 },
        none)

/-- The submit handler of the book form. `editingBookId` is the global variable of that
name; the result is the state and the variable afterwards. A failed validation returns
before anything is written. -/
def bookFormSubmit (env : Env) (pdfFault coverFault : Option String) (form : BookForm)
    (editingBookId : Option String) (s : State) : State × Option String :=
  let pdfFile := form.bookPdf
  let coverFile := form.bookCover
  let formData : FormData :=
    { title := jsTrim form.bookTitle
      author := jsTrim form.bookAuthor
      category := form.bookCategory
      pages := numberOrNull (parseInt form.bookPages)
      pdfName := pdfFile.map JsFile.name
      coverId := none }
  let pdfInvalid :=
    match pdfFile with
    | some f => f.type != "application/pdf"
    | none => false
  let coverInvalid :=
    match coverFile with
    | some f => !("image/".data.isPrefixOf f.type.data) || decide (f.size > 2 * 1024 * 1024)
    | none => false
  if pdfInvalid then (s, editingBookId)
  else if coverInvalid then (s, editingBookId)
  else
    match editingBookId with
    | some id =>
      if id != "" then submitEdit env pdfFault coverFault pdfFile coverFile formData id s
      else submitAdd env pdfFault coverFault pdfFile coverFile formData editingBookId s
    | none => submitAdd env pdfFault coverFault pdfFile coverFile formData editingBookId s

/-- The submitted files pass the validation of the submit handler: a PDF has the MIME type
`application/pdf`, a cover has a MIME type that starts with `image/` and at most 2 MB. -/
def FilesValid (form : BookForm) : Prop :=
  (∀ p, form.bookPdf = some p → p.type = "application/pdf") ∧
  (∀ c, form.bookCover = some c →
    "image/".data.isPrefixOf c.type.data = true ∧ c.size ≤ 2 * 1024 * 1024)

/-! ## Admin profile and session -/

/-- The object `adminProfile`; `avatarId` and `role` are properties it may lack. -/
structure AdminProfile where
  username : String
  fullName : String
  email : String
  contact : String
  password : String
  avatarId : Option String
  role : Option String
deriving DecidableEq, Repr

/-- The record stored under `currentUser`. -/
structure Session where
  email : String
  name : String
deriving DecidableEq, Repr

/-- The variable `adminProfile` of `script.js` and the entries `adminProfile` and
`currentUser` of `localStorage`, which the login page shares with the library page. -/
structure Account where
  adminProfile : AdminProfile
  lsAdminProfile : Option AdminProfile
  lsCurrentUser : Option Session
deriving DecidableEq, Repr

/-- The initial value of the variable `adminProfile`. -/
def defaultAdminProfile : AdminProfile :=
  ⟨"admin", "Admin User", "admin@bookshelf.com", "+1 234 567 8900", "admin123", none, none⟩

/-- The function `saveAdminProfile`. -/
def saveAdminProfile (a : Account) : Account :=
  { a with lsAdminProfile := some a.adminProfile }

/-- The function `loadAdminProfile`. -/
def loadAdminProfile (a : Account) : Account :=
  match a.lsAdminProfile with
  | some stored => { a with adminProfile := stored }
  | none => saveAdminProfile a

/-- The three properties that the login handler reads of a profile. -/
structure LoginProfile where
  email : String
  password : String
  fullName : String
deriving DecidableEq, Repr

/-- The constant `profile` of the login handler: the stored profile, or else the
built-in one. -/
def loginProfile (a : Account) : LoginProfile :=
  match a.lsAdminProfile with
  | some stored => ⟨stored.email, stored.password, stored.fullName⟩
  | none => ⟨"admin@bookshelf.com", "admin123", "Admin User"⟩

/-- The submit handler of `loginForm` in `auth.js`, with the values of the email and
password inputs. The result is `true` when the login is accepted (the page then goes to
`index.html`), together with the storage afterwards. -/
def loginSubmit (email password : String) (a : Account) : Bool × Account :=
  if email != "" && password != "" then
    let profile := loginProfile a
    if email == profile.email && password == profile.password then
      (true, { a with lsCurrentUser := some ⟨profile.email, profile.fullName⟩ })
    else
      (false, a)
  else
    (false, a)

/-! ## The account form -/

/-- The property `length` of a string: the number of UTF-16 code units, two for a
character beyond the basic plane. -/
def jsLength (s : String) : Nat :=
  (s.data.map (fun c => if c.toNat < 0x10000 then 1 else 2)).sum

/-- The object `formData` that the account form passes to `saveAccountData`: the values
of its five inputs. -/
structure AccountForm where
  username : String
  fullName : String
  email : String
  password : String
  confirmPassword : String
deriving DecidableEq, Repr

/-- The part of `saveAccountData` after the password check: the profile `profile` (with
the new password, if any) gets the trimmed username, full name and email and a role, is
saved, and a stored session gets the new full name and email. -/
def updateProfile (formData : AccountForm) (profile : AdminProfile) (a : Account) :
    Account :=
  let updated : AdminProfile :=
    { profile with
      username := jsTrim formData.username
      fullName := jsTrim formData.fullName
      email := jsTrim formData.email
      role := if truthy profile.role then profile.role else some "Administrator" }
  let saved := saveAdminProfile { a with adminProfile := updated }
  match saved.lsCurrentUser with
  | some currentUser =>
    { saved with
      lsCurrentUser := some { currentUser with name := updated.fullName, email := updated.email } }
  | none => saved

/-- The function `saveAccountData`, with its return value. -/
def saveAccountData (formData : AccountForm) (a : Account) : Bool × Account :=
  let password := jsTrim formData.password
  let confirmPassword := jsTrim formData.confirmPassword
  if password != "" then
    if jsLength password < 6 then
      (false, a)
    else if password != confirmPassword then
      (false, a)
    else
      (true, updateProfile formData { a.adminProfile with password := password } a)
  else
    (true, updateProfile formData a.adminProfile a)

/-- The constant `avatarId` of the avatar upload handler: the key of the avatar in the
image store. -/
def avatarKey : String :=
  "admin_avatar"

/-! ## The category invariant and the reachable states -/

/-- The invariant of the category list: no entry occurs twice, and every entry is a
non-empty string equal to its own lowercased, trimmed form. -/
def CategoryInvariant (toLowerCase : String → String) (cats : List String) : Prop :=
  cats.Nodup ∧ ∀ c ∈ cats, c ≠ "" ∧ jsTrim (toLowerCase c) = c

instance (toLowerCase : String → String) (cats : List String) :
    Decidable (CategoryInvariant toLowerCase cats) := by
  unfold CategoryInvariant
  infer_instance

/-- The states the page can be in: the first `loadCategories`, with nothing stored,
installs the defaults; then every function of the catalog manager may run, with any
arguments and any behaviour of the browser, and `loadCategories` may run again (on every
later load of the page). -/
inductive Reachable (toLowerCase : String → String) : State → Prop
  | start (s : State) (h : s.lsCategories = none) : Reachable toLowerCase (loadCategories s)
  | loadCategories (s : State) (h : Reachable toLowerCase s) :
      Reachable toLowerCase (loadCategories s)
  | addCategory (name : String) (s : State) (h : Reachable toLowerCase s) :
      Reachable toLowerCase (addCategory toLowerCase name s).2
  | deleteCategory (confirmed : Bool) (name : String) (s : State)
      (h : Reachable toLowerCase s) : Reachable toLowerCase (deleteCategory confirmed name s)
  | addBook (env : Env) (bookData : BookData) (s : State) (h : Reachable toLowerCase s) :
      Reachable toLowerCase (addBook env bookData s)
  | updateBook (id : String) (bookData : BookPatch) (s : State)
      (h : Reachable toLowerCase s) : Reachable toLowerCase (updateBook id bookData s)
  | deleteBook (confirmed : Bool) (pdfFault coverFault : Option String) (id : String)
      (s : State) (h : Reachable toLowerCase s) :
      Reachable toLowerCase (deleteBook confirmed pdfFault coverFault id s)
  | toggleFavorite (id : String) (s : State) (h : Reachable toLowerCase s) :
      Reachable toLowerCase (toggleFavorite id s)

/-! ## Concrete inputs -/

/-- A state with no books, no categories and a database that was never opened. -/
def emptyState : State :=
  ⟨[], [], none, none, none⟩

/-- Clock and random readings: `Date.now()` is `0`, `Math.random()` is `0`. -/
def env0 : Env :=
  ⟨0, [], 0⟩

/-- A book input whose `id`, `pdfName` and `coverId` are supplied as the empty string. -/
def emptyStringData : BookData :=
  ⟨some "", "Emma", "Austen", "fiction", some 474, some "", some "", none⟩

/-- A book input without identifier and without attachments. -/
def plainData : BookData :=
  ⟨none, "Emma", "Austen", "fiction", some 474, none, none, some true⟩

/-- A book input that supplies the identifier `b1`. -/
def suppliedData : BookData :=
  ⟨some "b1", "Emma", "Austen", "fiction", some 474, some "emma.pdf", some "cover_b1", none⟩

/-- A book with identifier `b1`, a PDF and a cover. -/
def bookB1 : Book :=
  ⟨"b1", "Dune", "Herbert", "fiction", some 612, some "dune.pdf", some "cover_b1", false, 5⟩

/-- A second record that carries the identifier `b1` as well. -/
def bookB1Twin : Book :=
  ⟨"b1", "Ulysses", "Joyce", "fiction", none, none, none, true, 6⟩

/-- A book with identifier `b2` and no attachment. -/
def bookB2 : Book :=
  ⟨"b2", "Walden", "Thoreau", "non-fiction", none, none, none, true, 7⟩

/-- A partial record that changes the title and the PDF name only. -/
def titlePatch : BookPatch :=
  ⟨none, some "Walden Pond", none, none, none, some (some "walden.pdf"), none, none, none⟩

/-- A PDF file. -/
def dunePdf : JsFile :=
  ⟨"dune.pdf", "application/pdf", 3, [37, 80, 68]⟩

/-- An image file. -/
def coverPng : JsFile :=
  ⟨"cover.png", "image/png", 2, [137, 80]⟩

/-- An opened database holding the PDF and the cover of the book `b1`, a PDF under the
key `b2` and the avatar image. -/
def sampleDb : Db :=
  ⟨[⟨"b1", "b1", "dune.pdf", "application/pdf", 3, dunePdf, 1⟩,
    ⟨"b2", "b2", "dune.pdf", "application/pdf", 3, dunePdf, 2⟩],
   [⟨"cover_b1", "cover.png", "image/png", coverPng, 1⟩,
    ⟨"admin_avatar", "cover.png", "image/png", coverPng, 3⟩]⟩

/-- A state with the books `b1` and `b2` and the opened database `sampleDb`. -/
def sampleState : State :=
  ⟨[bookB1, bookB2], defaultCategories, some sampleDb, none, none⟩

/-- A book titled `Banana`, added at time 1. -/
def bananaBook : Book :=
  ⟨"k1", "Banana", "Woolf", "fiction", none, none, none, false, 1⟩

/-- A book titled `apple`, added at time 2. -/
def appleBook : Book :=
  ⟨"k2", "apple", "Zola", "fiction", none, some "Apple.PDF", none, false, 2⟩

/-- A submitted form with a new title, `12` pages and no file. -/
def plainForm : BookForm :=
  ⟨" Dune Messiah ", "Herbert", "fiction", "12", none, none⟩

/-- A submitted form with a PDF file and a cover image. -/
def fileForm : BookForm :=
  ⟨"Emma", "Austen", "fiction", "", some dunePdf, some coverPng⟩

/-- The storage of a browser that has never opened the application. -/
def freshAccount : Account :=
  ⟨defaultAdminProfile, none, none⟩

/-- A storage with the initial profile and the session of a login with it. -/
def signedInAccount : Account :=
  ⟨defaultAdminProfile, some defaultAdminProfile, some ⟨"admin@bookshelf.com", "Admin User"⟩⟩

/-- An account form that changes the full name and leaves the password fields empty. -/
def renameForm : AccountForm :=
  ⟨"admin", " Ada Admin ", "admin@bookshelf.com", "", ""⟩

/-- An account form with a new password typed with a blank before and after it. -/
def paddedPasswordForm : AccountForm :=
  ⟨"admin", "Admin User", "admin@bookshelf.com", " secret1 ", " secret1 "⟩

/-- An account form with a new password and an empty email. -/
def emptyEmailForm : AccountForm :=
  ⟨"admin", "Admin User", "", "secret1", "secret1"⟩

/-- An account form whose new password has five characters. -/
def shortPasswordForm : AccountForm :=
  ⟨"root", "Root", "root@bookshelf.com", "abcde", "abcde"⟩

/-- An account form whose confirmation differs from the new password. -/
def mismatchForm : AccountForm :=
  ⟨"root", "Root", "root@bookshelf.com", "secret1", "secret2"⟩

/-- A book form with `-5` in the page-count field. -/
def negativePagesForm : BookForm :=
  ⟨"Emma", "Austen", "fiction", "-5", none, none⟩

/-- A numeral of 400 digits `9`. -/
def hugeNumeral : String :=
  ⟨List.replicate 400 '9'⟩

/-- A book form with the numeral of 400 digits in the page-count field. -/
def hugePagesForm : BookForm :=
  ⟨"Emma", "Austen", "fiction", hugeNumeral, none, none⟩

/-- An account form whose password fields hold three blanks each. -/
def blankPasswordForm : AccountForm :=
  ⟨"admin", "Admin User", "admin@bookshelf.com", "   ", "   "⟩

/-- A state in which a record without attachments comes before the book `b1` and has its
identifier. -/
def twinFirstState : State :=
  ⟨[bookB1Twin, bookB1, bookB2], defaultCategories, some sampleDb, none, none⟩

/-! ## Lemmas on lists -/

/-- A list with exactly one element satisfying `p` splits around that element. -/
theorem exists_split_of_countP_eq_one {α : Type} (p : α → Bool) :
    ∀ l : List α, l.countP p = 1 →
      ∃ pre b post, l = pre ++ b :: post ∧ p b = true ∧
        (∀ x ∈ pre, p x = false) ∧ (∀ x ∈ post, p x = false)
  | [], h => by simp at h
  | a :: l, h => by
    by_cases ha : p a = true
    · refine ⟨[], a, l, rfl, ha, by simp, ?_⟩
      have h0 : l.countP p = 0 := by
        rw [List.countP_cons_of_pos _ _ ha] at h
        omega
      intro x hx
      have := (List.countP_eq_zero.mp h0) x hx
      simpa using this
    · rw [List.countP_cons_of_neg _ _ ha] at h
      obtain ⟨pre, b, post, hl, hb, hpre, hpost⟩ := exists_split_of_countP_eq_one p l h
      refine ⟨a :: pre, b, post, by simp [hl], hb, ?_, hpost⟩
      intro x hx
      rcases List.mem_cons.mp hx with rfl | hx
      · simpa using ha
      · exact hpre x hx

/-- Filtering out the one element that satisfies `p` removes exactly that element. -/
theorem filter_not_split {α : Type} (p : α → Bool) (pre post : List α) (b : α)
    (hb : p b = true) (hpre : ∀ x ∈ pre, p x = false) (hpost : ∀ x ∈ post, p x = false) :
    (pre ++ b :: post).filter (fun x => !p x) = pre ++ post := by
  have h1 : pre.filter (fun x => !p x) = pre :=
    List.filter_eq_self.mpr (fun x hx => by simp [hpre x hx])
  have h2 : post.filter (fun x => !p x) = post :=
    List.filter_eq_self.mpr (fun x hx => by simp [hpost x hx])
  simp [List.filter_append, List.filter_cons, hb, h1, h2]

/-- The index found by `findIndex` is the position of the first match. -/
theorem findIdx?_first_match {α : Type} (p : α → Bool) (b : α) (post : List α)
    (hb : p b = true) : ∀ pre : List α, (∀ x ∈ pre, p x = false) →
      (pre ++ b :: post).findIdx? p = some pre.length
  | [], _ => by simp [List.findIdx?_cons, hb]
  | a :: pre, hpre => by
    have ha : p a = false := hpre a (by simp)
    have ih := findIdx?_first_match p b post hb pre (fun x hx => hpre x (by simp [hx]))
    simp [List.findIdx?_cons, ha, List.findIdx?_succ, ih]

/-- The element at the position of the first match. -/
theorem getElem?_first_match {α : Type} (pre post : List α) (b : α) :
    (pre ++ b :: post)[pre.length]? = some b := by
  rw [List.getElem?_append_right (Nat.le_refl _)]
  simp

/-- Assigning at the position of the first match replaces that element only. -/
theorem set_first_match {α : Type} (pre post : List α) (b c : α) :
    (pre ++ b :: post).set pre.length c = pre ++ c :: post := by
  simp

/-- A list with an element satisfying `p` splits at the first such element. -/
theorem exists_first_match {α : Type} (p : α → Bool) :
    ∀ l : List α, (∃ x ∈ l, p x = true) →
      ∃ pre b post, l = pre ++ b :: post ∧ p b = true ∧ ∀ x ∈ pre, p x = false
  | [], h => by simp at h
  | a :: l, h => by
    by_cases ha : p a = true
    · exact ⟨[], a, l, rfl, ha, by simp⟩
    · obtain ⟨x, hx, hpx⟩ := h
      have hxl : x ∈ l := by
        rcases List.mem_cons.mp hx with rfl | hx
        · exact absurd hpx ha
        · exact hx
      obtain ⟨pre, b, post, hl, hb, hpre⟩ := exists_first_match p l ⟨x, hxl, hpx⟩
      refine ⟨a :: pre, b, post, by simp [hl], hb, ?_⟩
      intro y hy
      rcases List.mem_cons.mp hy with rfl | hy
      · simpa using ha
      · exact hpre y hy

/-! ## Lemmas on strings -/

/-- A prefix of a list that does not start with a `p` does not start with one either. -/
theorem dropWhile_prefix_fixed {α : Type} (p : α → Bool) (x l t : List α)
    (hx : x.dropWhile p = x) (hlt : l ++ t = x) : l.dropWhile p = l := by
  cases l with
  | nil => rfl
  | cons a l2 =>
    have hxa : x = a :: (l2 ++ t) := by rw [← hlt]; rfl
    by_cases ha : p a = true
    · exfalso
      rw [hxa, List.dropWhile_cons_of_pos ha] at hx
      have hlen := congrArg List.length hx
      have hle := (List.dropWhile_suffix p (l := l2 ++ t)).length_le
      simp only [List.length_cons] at hlen
      omega
    · exact List.dropWhile_cons_of_neg ha

/-- Dropping at both ends a second time changes nothing. -/
theorem trim_idem {α : Type} (p : α → Bool) (cs : List α) :
    (((((cs.dropWhile p).reverse.dropWhile p).reverse).dropWhile p).reverse.dropWhile p).reverse
      = ((cs.dropWhile p).reverse.dropWhile p).reverse := by
  have hpre : ((cs.dropWhile p).reverse.dropWhile p).reverse <+: cs.dropWhile p :=
    List.rdropWhile_prefix p _
  obtain ⟨t, ht⟩ := hpre
  have h1 := dropWhile_prefix_fixed p (cs.dropWhile p) _ t (List.dropWhile_idempotent p cs) ht
  rw [h1, List.reverse_reverse, List.dropWhile_idempotent]

/-- The capital ASCII letters have the codes 65 to 90. -/
theorem isUpper_iff (c : Char) : c.isUpper = true ↔ 65 ≤ c.toNat ∧ c.toNat ≤ 90 := by
  simp only [Char.isUpper, Char.toNat, Bool.and_eq_true, decide_eq_true_eq, ge_iff_le]
  rfl

/-- The codes 97 to 122 are not capital letters. -/
theorem ofNat_add_not_upper : ∀ n : Nat, 65 ≤ n → n ≤ 90 → (Char.ofNat (n + 32)).isUpper = false := by
  intro n h1 h2
  interval_cases n <;> rfl

/-- ASCII lowercasing keeps what is not a capital letter. -/
theorem toLower_of_not_upper (c : Char) (h : c.isUpper = false) : c.toLower = c := by
  have h2 : ¬ (65 ≤ c.toNat ∧ c.toNat ≤ 90) := by
    rw [← isUpper_iff]; simp [h]
  simp only [Char.toLower, ge_iff_le]
  rw [if_neg h2]

/-- ASCII lowercasing leaves no capital letter. -/
theorem toLower_not_upper (c : Char) : c.toLower.isUpper = false := by
  by_cases h : c.isUpper = true
  · have h2 := (isUpper_iff c).mp h
    simp only [Char.toLower, ge_iff_le]
    rw [if_pos h2]
    exact ofNat_add_not_upper _ h2.1 h2.2
  · have h3 : c.isUpper = false := by simpa using h
    rw [toLower_of_not_upper c h3]
    exact h3

/-! ## Adding a book -/

/-- C1, counterexample: an input that supplies the empty string as `id`, `pdfName` and
`coverId` gets the generated identifier `0` and `null` attachments, not the supplied
values. -/
theorem addBook_empty_string_not_kept :
    (addBook env0 emptyStringData emptyState).books =
        [⟨"0", "Emma", "Austen", "fiction", some 474, none, none, false, 0⟩] ∧
      emptyStringData.id = some "" ∧ emptyStringData.pdfName = some "" ∧
      emptyStringData.coverId = some "" ∧
      ¬ (∃ r : Book, (addBook env0 emptyStringData emptyState).books = r :: emptyState.books ∧
          some r.id = emptyStringData.id ∧ r.pdfName = emptyStringData.pdfName ∧
          r.coverId = emptyStringData.coverId) := by
  refine ⟨by decide, rfl, rfl, rfl, ?_⟩
  rintro ⟨r, hr, hid, -, -⟩
  have h : (addBook env0 emptyStringData emptyState).books =
      [⟨"0", "Emma", "Austen", "fiction", some 474, none, none, false, 0⟩] := by decide
  rw [h] at hr
  have hr2 : r = ⟨"0", "Emma", "Austen", "fiction", some 474, none, none, false, 0⟩ :=
    (List.cons.inj hr).1.symm
  subst hr2
  exact absurd hid (by decide)

/-- C1, amended: `addBook` leaves the list equal to the new record followed by the old
list, one longer than before. The new record has the title, author, category and pages of
the input, `favorite = false`, the creation time of the call, the supplied `id` when it is a
non-empty string and the generated one otherwise, and `pdfName` and `coverId` equal to the
supplied values when these are non-empty strings and `null` otherwise. The list is
persisted. -/
theorem addBook_prepends_new_record (env : Env) (data : BookData) (s : State) :
    ∃ r : Book,
      (addBook env data s).books = r :: s.books ∧
      (addBook env data s).books.length = s.books.length + 1 ∧
      (addBook env data s).lsBooks = some (r :: s.books) ∧
      r.title = data.title ∧ r.author = data.author ∧ r.category = data.category ∧
      r.pages = data.pages ∧ r.favorite = false ∧ r.dateAdded = env.newDate ∧
      (∀ i, data.id = some i → i ≠ "" → r.id = i) ∧
      (data.id = none ∨ data.id = some "" → r.id = generateId env) ∧
      (∀ n, data.pdfName = some n → n ≠ "" → r.pdfName = some n) ∧
      (data.pdfName = none ∨ data.pdfName = some "" → r.pdfName = none) ∧
      (∀ c, data.coverId = some c → c ≠ "" → r.coverId = some c) ∧
      (data.coverId = none ∨ data.coverId = some "" → r.coverId = none) := by
  refine ⟨newBook env data, rfl, by simp [addBook, saveToLocalStorage], rfl, rfl, rfl, rfl,
    rfl, rfl, rfl, ?_, ?_, ?_, ?_, ?_, ?_⟩
  · intro i hi hne
    simp [newBook, orElse, hi, hne]
  · rintro (h | h) <;> simp [newBook, orElse, h]
  · intro n hn hne
    simp [newBook, orNull, truthy, hn, hne]
  · rintro (h | h) <;> simp [newBook, orNull, truthy, h]
  · intro c hc hne
    simp [newBook, orNull, truthy, hc, hne]
  · rintro (h | h) <;> simp [newBook, orNull, truthy, h]

/-- C2, counterexample: adding a book under the identifier `b1` to a list that holds a
book `b1`, and adding two books while clock and random generator read the same, both leave
two records with one identifier. -/
theorem addBook_identifier_collides :
    ((addBook env0 suppliedData ⟨[bookB1], [], none, none, none⟩).books.map Book.id
        = ["b1", "b1"]) ∧
      ((addBook env0 plainData (addBook env0 plainData emptyState)).books.map Book.id
        = ["0", "0"]) := by
  decide

/-- C2, amended: the identifier of the new record is the supplied non-empty one or else
the generated one, and `addBook` compares it with nothing. When that identifier does not
occur in the list, it differs from the identifier of every record that was already there,
and pairwise distinct identifiers stay pairwise distinct. -/
theorem addBook_fresh_id_distinct (env : Env) (data : BookData) (s : State)
    (hfresh : ∀ b ∈ s.books,
      b.id ≠ (match data.id with
        | some i => if i = "" then generateId env else i
        | none => generateId env)) :
    ∃ r : Book, (addBook env data s).books = r :: s.books ∧
      (∀ b ∈ s.books, b.id ≠ r.id) ∧
      ((s.books.map Book.id).Nodup → ((addBook env data s).books.map Book.id).Nodup) := by
  have hid : (newBook env data).id = (match data.id with
        | some i => if i = "" then generateId env else i
        | none => generateId env) := by
    cases h : data.id with
    | none => simp [newBook, orElse, h]
    | some i => by_cases hi : i = "" <;> simp [newBook, orElse, h, hi]
  refine ⟨newBook env data, rfl, ?_, ?_⟩
  · intro b hb
    rw [hid]
    exact hfresh b hb
  · intro hnd
    show ((newBook env data :: s.books).map Book.id).Nodup
    rw [List.map_cons, List.nodup_cons]
    refine ⟨?_, hnd⟩
    intro hmem
    obtain ⟨b, hb, hbid⟩ := List.mem_map.mp hmem
    rw [hid] at hbid
    exact hfresh b hb hbid

/-- C2, witness: the identifier `b1` is new to a list that holds only the book `b2`. -/
theorem addBook_fresh_id_distinct_witness :
    ∃ r : Book, (addBook env0 suppliedData ⟨[bookB2], [], none, none, none⟩).books
        = r :: [bookB2] ∧
      (∀ b ∈ [bookB2], b.id ≠ r.id) ∧
      (([bookB2].map Book.id).Nodup →
        ((addBook env0 suppliedData ⟨[bookB2], [], none, none, none⟩).books.map
          Book.id).Nodup) :=
  addBook_fresh_id_distinct env0 suppliedData ⟨[bookB2], [], none, none, none⟩ (by decide)

/-! ## Deleting a book -/

/-- After `delete(k)` the key `k` is not found. -/
theorem storeGet_storeDelete_self {α : Type} (key : α → String) (k : String) :
    ∀ store : List α, storeGet key k (storeDelete key k store) = none
  | [] => rfl
  | a :: l => by
    have ih := storeGet_storeDelete_self key k l
    unfold storeGet storeDelete at *
    by_cases h : key a = k <;> simp [List.filter_cons, List.find?_cons, h, ih]

/-- The method `delete(k)` leaves every other key as it was. -/
theorem storeGet_storeDelete_other {α : Type} (key : α → String) (k j : String)
    (hne : j ≠ k) : ∀ store : List α,
      storeGet key j (storeDelete key k store) = storeGet key j store
  | [] => rfl
  | a :: l => by
    have ih := storeGet_storeDelete_other key k j hne l
    unfold storeGet storeDelete at *
    by_cases h : key a = k
    · have hkj : ¬ k = j := fun e => hne e.symm
      simp [List.filter_cons, List.find?_cons, h, hkj, ih]
    · by_cases hj : key a = j <;> simp [List.filter_cons, List.find?_cons, h, hj, hne, ih]

/-- The book list after a confirmed `deleteBook`. -/
theorem deleteBook_books (pdfFault coverFault : Option String) (id : String) (s : State) :
    (deleteBook true pdfFault coverFault id s).books
      = s.books.filter (fun b => !(b.id == id)) := by
  simp [deleteBook, saveToLocalStorage, bne]

/-- C3, counterexample: with two records under the identifier `b1`, a confirmed
`deleteBook` removes both, so the list is two shorter, not one. Two calls of `addBook` with
the identifier `b1` build such a list, which `deleteBook` then empties. -/
theorem deleteBook_removes_every_match :
    (∃ b ∈ [bookB1, bookB1Twin, bookB2], b.id = "b1") ∧
      (deleteBook true none none "b1" ⟨[bookB1, bookB1Twin, bookB2], [], none, none, none⟩).books
        = [bookB2] ∧
      (deleteBook true none none "b1"
          ⟨[bookB1, bookB1Twin, bookB2], [], none, none, none⟩).books.length + 1
        ≠ [bookB1, bookB1Twin, bookB2].length ∧
      (addBook env0 suppliedData (addBook env0 suppliedData emptyState)).books.length = 2 ∧
      (deleteBook true none none "b1"
          (addBook env0 suppliedData (addBook env0 suppliedData emptyState))).books = [] := by
  refine ⟨⟨bookB1, by simp, rfl⟩, by decide, by decide, by decide, by decide⟩

/-- C3, amended: for every book list in which exactly one record has the identifier `id`,
a confirmed `deleteBook(id)` leaves a list with no record of that identifier, exactly one
shorter, in which all other records are unchanged and in their old order: the list is
`pre ++ b :: post` before and `pre ++ post` after. -/
theorem deleteBook_removes_the_record (pdfFault coverFault : Option String) (id : String)
    (s : State) (hone : s.books.countP (fun b => b.id == id) = 1) :
    ∃ pre b post, s.books = pre ++ b :: post ∧ b.id = id ∧
      (deleteBook true pdfFault coverFault id s).books = pre ++ post ∧
      (deleteBook true pdfFault coverFault id s).books.length + 1 = s.books.length ∧
      (∀ x ∈ (deleteBook true pdfFault coverFault id s).books, x.id ≠ id) ∧
      (deleteBook true pdfFault coverFault id s).lsBooks = some (pre ++ post) := by
  obtain ⟨pre, b, post, hl, hb, hpre, hpost⟩ :=
    exists_split_of_countP_eq_one (fun b : Book => b.id == id) s.books hone
  have hbooks : (deleteBook true pdfFault coverFault id s).books = pre ++ post := by
    rw [deleteBook_books, hl]
    exact filter_not_split (fun b : Book => b.id == id) pre post b hb hpre hpost
  have hls : (deleteBook true pdfFault coverFault id s).lsBooks
      = some (deleteBook true pdfFault coverFault id s).books := by
    simp [deleteBook, saveToLocalStorage]
  refine ⟨pre, b, post, hl, by simpa using hb, hbooks, ?_, ?_, ?_⟩
  · rw [hbooks, hl]
    simp
    omega
  · intro x hx
    rw [hbooks] at hx
    rcases List.mem_append.mp hx with h | h
    · simpa using hpre x h
    · simpa using hpost x h
  · rw [hls, hbooks]

/-- C3, witness: the book `b1` of the sample state. -/
theorem deleteBook_removes_the_record_witness :
    ∃ pre b post, sampleState.books = pre ++ b :: post ∧ b.id = "b1" ∧
      (deleteBook true none none "b1" sampleState).books = pre ++ post ∧
      (deleteBook true none none "b1" sampleState).books.length + 1
        = sampleState.books.length ∧
      (∀ x ∈ (deleteBook true none none "b1" sampleState).books, x.id ≠ "b1") ∧
      (deleteBook true none none "b1" sampleState).lsBooks = some (pre ++ post) :=
  deleteBook_removes_the_record none none "b1" sampleState (by decide)

/-- The database after a confirmed `deleteBook` whose delete requests succeed: the PDF
under `id` is removed when the book found has a `pdfName`, the image under its `coverId`
when it has one. -/
theorem deleteBook_db (id : String) (s : State) (d : Db) (book : Book)
    (hdb : s.db = some d)
    (hbook : s.books.find? (fun b => b.id == id) = some book) :
    (deleteBook true none none id s).db
      = some ⟨if truthy book.pdfName then storeDelete PdfRecord.id id d.pdfs else d.pdfs,
          match book.coverId with
          | some c => if c != "" then storeDelete ImageRecord.id c d.images else d.images
          | none => d.images⟩ := by
  cases hc : book.coverId with
  | none =>
    by_cases hp : truthy book.pdfName = true <;>
      simp [deleteBook, saveToLocalStorage, hbook, hdb, hp, hc, deletePDF]
  | some c =>
    by_cases hp : truthy book.pdfName = true <;> by_cases hce : c = "" <;>
      simp [deleteBook, saveToLocalStorage, hbook, hdb, hp, hc, hce, deletePDF, deleteImage]

/-- C4, counterexample: the book `b1` has a PDF and a cover, and a record without
attachments that has its identifier comes before it in the list. A confirmed
`deleteBook('b1')` on the opened store removes both records, and afterwards `getPDF('b1')`
and `getImage('cover_b1')` still resolve with the stored PDF and the stored cover. -/
theorem deleteBook_keeps_attachments_of_later_match :
    bookB1 ∈ twinFirstState.books ∧ bookB1.id = "b1" ∧
      truthy bookB1.pdfName = true ∧ bookB1.coverId = some "cover_b1" ∧
      (deleteBook true none none "b1" twinFirstState).books = [bookB2] ∧
      getPDF none "b1" (deleteBook true none none "b1" twinFirstState).db
        = .ok (some ⟨"b1", "b1", "dune.pdf", "application/pdf", 3, dunePdf, 1⟩) ∧
      getPDF none "b1" (deleteBook true none none "b1" twinFirstState).db ≠ .ok none ∧
      getImage none "cover_b1" (deleteBook true none none "b1" twinFirstState).db
        = .ok (some ⟨"cover_b1", "cover.png", "image/png", coverPng, 1⟩) ∧
      getImage none "cover_b1" (deleteBook true none none "b1" twinFirstState).db
        ≠ .ok none := by
  refine ⟨by decide, rfl, by decide, rfl, by decide, rfl, ?_, rfl, ?_⟩
  · intro h
    cases h
  · intro h
    cases h

/-- C4, amended: for the book that `deleteBook(id)` looks up, the first record of the
list with the identifier (the only one when identifiers are distinct): on an opened blob
store whose delete requests succeed, after a confirmed `deleteBook(id)` of a book with a
PDF attachment `getPDF(id)` resolves with not-found, and of a book with a cover attachment
`getImage(book.coverId)` resolves with not-found (the store being still open); the PDFs
under every other identifier and the images under every other key are as before. -/
theorem deleteBook_deletes_attachments (id : String) (s : State) (d : Db) (book : Book)
    (hdb : s.db = some d)
    (hbook : s.books.find? (fun b => b.id == id) = some book) :
    (∃ d2, (deleteBook true none none id s).db = some d2) ∧
      (truthy book.pdfName = true →
        getPDF none id (deleteBook true none none id s).db = .ok none) ∧
      (∀ c, book.coverId = some c → c ≠ "" →
        getImage none c (deleteBook true none none id s).db = .ok none) ∧
      (∀ k, k ≠ id →
        getPDF none k (deleteBook true none none id s).db = getPDF none k s.db) ∧
      (∀ k, book.coverId ≠ some k →
        getImage none k (deleteBook true none none id s).db = getImage none k s.db) := by
  rw [deleteBook_db id s d book hdb hbook]
  refine ⟨⟨_, rfl⟩, ?_, ?_, ?_, ?_⟩
  · intro hp
    simp [getPDF, hp, storeGet_storeDelete_self]
  · intro c hc hne
    simp [getImage, hc, hne, storeGet_storeDelete_self]
  · intro k hk
    by_cases hp : truthy book.pdfName = true
    · simp [getPDF, hdb, hp, storeGet_storeDelete_other _ _ _ hk]
    · simp [getPDF, hdb, hp]
  · intro k hk
    cases hc : book.coverId with
    | none => simp [getImage, hdb]
    | some c =>
      have hkc : k ≠ c := fun e => hk (by rw [hc, e])
      by_cases hce : c = ""
      · simp [getImage, hdb, hce]
      · simp [getImage, hdb, hce, storeGet_storeDelete_other _ _ _ hkc]

/-- C4, witness: deleting the book `b1` of the sample state, which has a PDF and a
cover. -/
theorem deleteBook_deletes_attachments_witness :
    (∃ d2, (deleteBook true none none "b1" sampleState).db = some d2) ∧
      (truthy bookB1.pdfName = true →
        getPDF none "b1" (deleteBook true none none "b1" sampleState).db = .ok none) ∧
      (∀ c, bookB1.coverId = some c → c ≠ "" →
        getImage none c (deleteBook true none none "b1" sampleState).db = .ok none) ∧
      (∀ k, k ≠ "b1" →
        getPDF none k (deleteBook true none none "b1" sampleState).db
          = getPDF none k sampleState.db) ∧
      (∀ k, bookB1.coverId ≠ some k →
        getImage none k (deleteBook true none none "b1" sampleState).db
          = getImage none k sampleState.db) :=
  deleteBook_deletes_attachments "b1" sampleState sampleDb bookB1 rfl (by decide)

/-! ## Updating a book -/

/-- The book list after `updateBook` when the first match is known. -/
theorem updateBook_books_split (id : String) (d : BookPatch) (s : State)
    (pre post : List Book) (b : Book) (hs : s.books = pre ++ b :: post)
    (hpre : ∀ x ∈ pre, (x.id == id) = false) (hb : (b.id == id) = true) :
    (updateBook id d s).books = pre ++ mergeBook b d :: post ∧
      (updateBook id d s).lsBooks = some (pre ++ mergeBook b d :: post) := by
  have h1 := findIdx?_first_match (fun book : Book => book.id == id) b post hb pre hpre
  simp only [updateBook, hs, h1, getElem?_first_match, set_first_match, saveToLocalStorage,
    and_self]

/-- C5: when no book has the identifier, `updateBook(id, d)` changes nothing; otherwise
the first book with the identifier is replaced by the merge of the book with `d`, the
books before and after it stay as they are, and the list is persisted. The length never
changes, and in the merge every field present in `d` has the value of `d` and every field
absent from `d` has its old value. -/
theorem updateBook_merges_first_match (id : String) (d : BookPatch) (s : State) :
    ((∀ b ∈ s.books, b.id ≠ id) → updateBook id d s = s) ∧
      ((∃ b ∈ s.books, b.id = id) →
        ∃ pre b post, s.books = pre ++ b :: post ∧ (∀ x ∈ pre, x.id ≠ id) ∧ b.id = id ∧
          (updateBook id d s).books = pre ++ mergeBook b d :: post ∧
          (updateBook id d s).lsBooks = some (pre ++ mergeBook b d :: post)) ∧
      (updateBook id d s).books.length = s.books.length ∧
      (∀ b : Book,
        (mergeBook b d).id = (match d.id with | some v => v | none => b.id) ∧
        (mergeBook b d).title = (match d.title with | some v => v | none => b.title) ∧
        (mergeBook b d).author = (match d.author with | some v => v | none => b.author) ∧
        (mergeBook b d).category
          = (match d.category with | some v => v | none => b.category) ∧
        (mergeBook b d).pages = (match d.pages with | some v => v | none => b.pages) ∧
        (mergeBook b d).pdfName
          = (match d.pdfName with | some v => v | none => b.pdfName) ∧
        (mergeBook b d).coverId
          = (match d.coverId with | some v => v | none => b.coverId) ∧
        (mergeBook b d).favorite
          = (match d.favorite with | some v => v | none => b.favorite) ∧
        (mergeBook b d).dateAdded
          = (match d.dateAdded with | some v => v | none => b.dateAdded)) := by
  have habsent : (∀ b ∈ s.books, b.id ≠ id) → updateBook id d s = s := by
    intro h
    have hnone : s.books.findIdx? (fun book => book.id == id) = none := by
      rw [List.findIdx?_eq_none_iff]
      intro x hx
      simpa using h x hx
    simp [updateBook, hnone]
  have hpresent : (∃ b ∈ s.books, b.id = id) →
      ∃ pre b post, s.books = pre ++ b :: post ∧ (∀ x ∈ pre, x.id ≠ id) ∧ b.id = id ∧
        (updateBook id d s).books = pre ++ mergeBook b d :: post ∧
        (updateBook id d s).lsBooks = some (pre ++ mergeBook b d :: post) := by
    rintro ⟨x, hx, hxid⟩
    obtain ⟨pre, b, post, hs, hb, hpre⟩ :=
      exists_first_match (fun book : Book => book.id == id) s.books ⟨x, hx, by simpa using hxid⟩
    have h := updateBook_books_split id d s pre post b hs hpre hb
    exact ⟨pre, b, post, hs, fun y hy => by simpa using hpre y hy, by simpa using hb, h.1, h.2⟩
  refine ⟨habsent, hpresent, ?_, ?_⟩
  · by_cases h : ∃ b ∈ s.books, b.id = id
    · obtain ⟨pre, b, post, hs, -, -, hbooks, -⟩ := hpresent h
      rw [hbooks, hs]
      simp
    · rw [habsent (fun b hb e => h ⟨b, hb, e⟩)]
  · intro b
    refine ⟨?_, ?_, ?_, ?_, ?_, ?_, ?_, ?_, ?_⟩
    · cases h : d.id <;> simp [mergeBook, h]
    · cases h : d.title <;> simp [mergeBook, h]
    · cases h : d.author <;> simp [mergeBook, h]
    · cases h : d.category <;> simp [mergeBook, h]
    · cases h : d.pages <;> simp [mergeBook, h]
    · cases h : d.pdfName <;> simp [mergeBook, h]
    · cases h : d.coverId <;> simp [mergeBook, h]
    · cases h : d.favorite <;> simp [mergeBook, h]
    · cases h : d.dateAdded <;> simp [mergeBook, h]

/-- C5, witness: the patch of title and PDF name applied to the book `b2` of the sample
state, and to the identifier `zz` that no book has. -/
theorem updateBook_merges_first_match_witness :
    (∃ pre b post, sampleState.books = pre ++ b :: post ∧ (∀ x ∈ pre, x.id ≠ "b2") ∧
        b.id = "b2" ∧
        (updateBook "b2" titlePatch sampleState).books = pre ++ mergeBook b titlePatch :: post ∧
        (updateBook "b2" titlePatch sampleState).lsBooks
          = some (pre ++ mergeBook b titlePatch :: post)) ∧
      updateBook "zz" titlePatch sampleState = sampleState ∧
      (updateBook "b2" titlePatch sampleState).books
        = [bookB1, ⟨"b2", "Walden Pond", "Thoreau", "non-fiction", none, some "walden.pdf",
            none, true, 7⟩] :=
  ⟨(updateBook_merges_first_match "b2" titlePatch sampleState).2.1 ⟨bookB2, by decide, rfl⟩,
    (updateBook_merges_first_match "zz" titlePatch sampleState).1 (by decide), by decide⟩

/-! ## Toggling the favorite flag -/

/-- The book list after `toggleFavorite` when the first match is known. -/
theorem toggleFavorite_books_split (id : String) (s : State)
    (pre post : List Book) (b : Book) (hs : s.books = pre ++ b :: post)
    (hpre : ∀ x ∈ pre, (x.id == id) = false) (hb : (b.id == id) = true) :
    (toggleFavorite id s).books = pre ++ { b with favorite := !b.favorite } :: post ∧
      (toggleFavorite id s).lsBooks
        = some (pre ++ { b with favorite := !b.favorite } :: post) := by
  have h1 := findIdx?_first_match (fun book : Book => book.id == id) b post hb pre hpre
  simp only [toggleFavorite, hs, h1, getElem?_first_match, set_first_match,
    saveToLocalStorage, and_self]

/-- Without a book of that identifier `toggleFavorite` changes nothing. -/
theorem toggleFavorite_absent (id : String) (s : State) (h : ∀ b ∈ s.books, b.id ≠ id) :
    toggleFavorite id s = s := by
  have hnone : s.books.findIdx? (fun book => book.id == id) = none := by
    rw [List.findIdx?_eq_none_iff]
    intro x hx
    simpa using h x hx
  simp [toggleFavorite, hnone]

/-- C6: applying `toggleFavorite(id)` twice gives back the original book list. -/
theorem toggleFavorite_twice (id : String) (s : State) :
    (toggleFavorite id (toggleFavorite id s)).books = s.books := by
  by_cases h : ∃ b ∈ s.books, b.id = id
  · obtain ⟨x, hx, hxid⟩ := h
    obtain ⟨pre, b, post, hs, hb, hpre⟩ :=
      exists_first_match (fun book : Book => book.id == id) s.books
        ⟨x, hx, by simpa using hxid⟩
    have h1 := (toggleFavorite_books_split id s pre post b hs hpre hb).1
    have h2 := (toggleFavorite_books_split id (toggleFavorite id s) pre post
      { b with favorite := !b.favorite } h1 hpre hb).1
    rw [h2, hs]
    simp
  · have habs : ∀ b ∈ s.books, b.id ≠ id := fun b hb e => h ⟨b, hb, e⟩
    rw [toggleFavorite_absent id s habs, toggleFavorite_absent id s habs]

/-- C7: when no book has the identifier, `toggleFavorite(id)` changes nothing; otherwise
the first book with the identifier gets its favorite flag negated and keeps all its other
fields, the books before and after it stay as they are, and the list is persisted. The
length never changes. -/
theorem toggleFavorite_flips_first_match (id : String) (s : State) :
    ((∀ b ∈ s.books, b.id ≠ id) → toggleFavorite id s = s) ∧
      ((∃ b ∈ s.books, b.id = id) →
        ∃ pre b post, s.books = pre ++ b :: post ∧ (∀ x ∈ pre, x.id ≠ id) ∧ b.id = id ∧
          (toggleFavorite id s).books
            = pre ++ ⟨b.id, b.title, b.author, b.category, b.pages, b.pdfName, b.coverId,
                !b.favorite, b.dateAdded⟩ :: post ∧
          (toggleFavorite id s).lsBooks = some (toggleFavorite id s).books) ∧
      (toggleFavorite id s).books.length = s.books.length ∧
      (toggleFavorite id s).categories = s.categories ∧
      (toggleFavorite id s).db = s.db := by
  have hpresent : (∃ b ∈ s.books, b.id = id) →
      ∃ pre b post, s.books = pre ++ b :: post ∧ (∀ x ∈ pre, x.id ≠ id) ∧ b.id = id ∧
        (toggleFavorite id s).books
          = pre ++ ⟨b.id, b.title, b.author, b.category, b.pages, b.pdfName, b.coverId,
              !b.favorite, b.dateAdded⟩ :: post ∧
        (toggleFavorite id s).lsBooks = some (toggleFavorite id s).books := by
    rintro ⟨x, hx, hxid⟩
    obtain ⟨pre, b, post, hs, hb, hpre⟩ :=
      exists_first_match (fun book : Book => book.id == id) s.books
        ⟨x, hx, by simpa using hxid⟩
    have h := toggleFavorite_books_split id s pre post b hs hpre hb
    exact ⟨pre, b, post, hs, fun y hy => by simpa using hpre y hy, by simpa using hb, h.1,
      by rw [h.2, h.1]⟩
  refine ⟨toggleFavorite_absent id s, hpresent, ?_, ?_, ?_⟩
  · by_cases h : ∃ b ∈ s.books, b.id = id
    · obtain ⟨pre, b, post, hs, -, -, hbooks, -⟩ := hpresent h
      rw [hbooks, hs]
      simp
    · rw [toggleFavorite_absent id s (fun b hb e => h ⟨b, hb, e⟩)]
  · unfold toggleFavorite
    split
    · rfl
    · split <;> rfl
  · unfold toggleFavorite
    split
    · rfl
    · split <;> rfl

/-- C7, witness: toggling the book `b2` of the sample state, and the identifier `zz`
that no book has. -/
theorem toggleFavorite_flips_first_match_witness :
    (∃ pre b post, sampleState.books = pre ++ b :: post ∧ (∀ x ∈ pre, x.id ≠ "b2") ∧
        b.id = "b2" ∧
        (toggleFavorite "b2" sampleState).books
          = pre ++ ⟨b.id, b.title, b.author, b.category, b.pages, b.pdfName, b.coverId,
              !b.favorite, b.dateAdded⟩ :: post ∧
        (toggleFavorite "b2" sampleState).lsBooks
          = some (toggleFavorite "b2" sampleState).books) ∧
      toggleFavorite "zz" sampleState = sampleState ∧
      (toggleFavorite "b2" sampleState).books
        = [bookB1, ⟨"b2", "Walden", "Thoreau", "non-fiction", none, none, none, false, 7⟩] :=
  ⟨(toggleFavorite_flips_first_match "b2" sampleState).2.1 ⟨bookB2, by decide, rfl⟩,
    (toggleFavorite_flips_first_match "zz" sampleState).1 (by decide), by decide⟩

/-! ## Categories -/

/-- Trimming a trimmed string changes nothing. -/
theorem jsTrim_jsTrim (s : String) : jsTrim (jsTrim s) = jsTrim s := by
  simp only [jsTrim, trimChars]
  rw [trim_idem]

/-- Every character of the trimmed list is a character of the list. -/
theorem mem_of_mem_trimChars (cs : List Char) (c : Char) (h : c ∈ trimChars cs) : c ∈ cs := by
  unfold trimChars at h
  rw [List.mem_reverse] at h
  have h1 := (List.dropWhile_suffix isJsWhiteSpace).subset h
  rw [List.mem_reverse] at h1
  exact (List.dropWhile_suffix isJsWhiteSpace).subset h1

/-- ASCII lowercasing satisfies the laws required of `toLowerCase`. -/
theorem asciiLower_laws : LowerCaseLaws asciiLower where
  fixes_ascii := by
    intro s h
    have hmap : s.data.map Char.toLower = s.data := by
      conv_rhs => rw [← List.map_id s.data]
      apply List.map_congr_left
      intro c hc
      exact toLower_of_not_upper c (h c hc).2
    simp only [asciiLower, hmap]
  stable := by
    intro s
    have hmap : (trimChars (s.data.map Char.toLower)).map Char.toLower
        = trimChars (s.data.map Char.toLower) := by
      conv_rhs => rw [← List.map_id (trimChars (s.data.map Char.toLower))]
      apply List.map_congr_left
      intro c hc
      have hc2 := mem_of_mem_trimChars _ c hc
      obtain ⟨c0, -, rfl⟩ := List.mem_map.mp hc2
      exact toLower_of_not_upper _ (toLower_not_upper c0)
    simp only [asciiLower, jsTrim, hmap]

/-- The result of `addCategory` when the cleaned name is accepted. -/
theorem addCategory_accept (toLowerCase : String → String) (name : String) (s : State)
    (h1 : jsTrim (toLowerCase name) ≠ "") (h2 : jsTrim (toLowerCase name) ∉ s.categories) :
    addCategory toLowerCase name s
      = (true, { s with categories := s.categories ++ [jsTrim (toLowerCase name)],
                        lsCategories := some (s.categories ++ [jsTrim (toLowerCase name)]) }) := by
  simp [addCategory, saveCategories, h1, h2]

/-- The result of `addCategory` when the cleaned name is rejected. -/
theorem addCategory_reject (toLowerCase : String → String) (name : String) (s : State)
    (h : jsTrim (toLowerCase name) = "" ∨ jsTrim (toLowerCase name) ∈ s.categories) :
    addCategory toLowerCase name s = (false, s) := by
  rcases h with h | h <;> simp [addCategory, h]

/-- C8: in a category list whose entries are lowercased and trimmed, as the data model
has it, a name that equals an entry of the list when both are lowercased and trimmed is
rejected: `addCategory` returns `false` and leaves the state, the category list with it,
unchanged. -/
theorem addCategory_rejects_present (toLowerCase : String → String) (name : String)
    (s : State) (hnorm : ∀ c ∈ s.categories, jsTrim (toLowerCase c) = c)
    (hpresent : ∃ c ∈ s.categories, jsTrim (toLowerCase c) = jsTrim (toLowerCase name)) :
    (addCategory toLowerCase name s).1 = false ∧
      (addCategory toLowerCase name s).2 = s ∧
      (addCategory toLowerCase name s).2.categories = s.categories := by
  obtain ⟨c, hc, hcn⟩ := hpresent
  have hmem : jsTrim (toLowerCase name) ∈ s.categories := by
    rw [← hcn, hnorm c hc]
    exact hc
  rw [addCategory_reject toLowerCase name s (Or.inr hmem)]
  exact ⟨rfl, rfl, rfl⟩

/-- C8, witness: the name `Fiction` written with a capital letter and surrounding blanks,
against the default categories. -/
theorem addCategory_rejects_present_witness :
    (addCategory asciiLower "  Fiction " sampleState).1 = false ∧
      (addCategory asciiLower "  Fiction " sampleState).2 = sampleState ∧
      (addCategory asciiLower "  Fiction " sampleState).2.categories
        = sampleState.categories :=
  addCategory_rejects_present asciiLower "  Fiction " sampleState (by decide)
    ⟨"fiction", by decide, by decide⟩

/-- C9: with `clean = trim(lowercase(name))`, `addCategory(name)` returns `true` exactly
when `clean` is non-empty and not in the list, and then the list is the old list followed
by `clean`, which is persisted; otherwise it returns `false` and the state is unchanged.
The function is total: it has a return value for every string. -/
theorem addCategory_accepts_iff (toLowerCase : String → String) (name : String)
    (s : State) :
    ((addCategory toLowerCase name s).1 = true ↔
        jsTrim (toLowerCase name) ≠ "" ∧ jsTrim (toLowerCase name) ∉ s.categories) ∧
      ((addCategory toLowerCase name s).1 = true →
        (addCategory toLowerCase name s).2.categories
            = s.categories ++ [jsTrim (toLowerCase name)] ∧
          (addCategory toLowerCase name s).2.lsCategories
            = some (s.categories ++ [jsTrim (toLowerCase name)]) ∧
          (addCategory toLowerCase name s).2.books = s.books) ∧
      ((addCategory toLowerCase name s).1 = false → (addCategory toLowerCase name s).2 = s) ∧
      ((addCategory toLowerCase name s).1 = true ∨
        (addCategory toLowerCase name s).1 = false) := by
  by_cases h : jsTrim (toLowerCase name) ≠ "" ∧ jsTrim (toLowerCase name) ∉ s.categories
  · rw [addCategory_accept toLowerCase name s h.1 h.2]
    simp [h]
  · have h2 : jsTrim (toLowerCase name) = "" ∨ jsTrim (toLowerCase name) ∈ s.categories := by
      by_cases e : jsTrim (toLowerCase name) = ""
      · exact Or.inl e
      · right
        by_contra hm
        exact h ⟨e, hm⟩
    rw [addCategory_reject toLowerCase name s h2]
    simp [h]

/-- C9, witness: a new name is appended in its cleaned form; the empty name, a name of
blanks only and a name already in the list are refused. -/
theorem addCategory_accepts_iff_witness :
    (addCategory asciiLower "  Poetry " sampleState).1 = true ∧
      (addCategory asciiLower "  Poetry " sampleState).2.categories
        = ["fiction", "non-fiction", "science", "technology", "business", "poetry"] ∧
      (addCategory asciiLower "" sampleState).2 = sampleState ∧
      (addCategory asciiLower " \t\n" sampleState).2 = sampleState ∧
      (addCategory asciiLower "SCIENCE" sampleState).2 = sampleState :=
  ⟨(addCategory_accepts_iff asciiLower "  Poetry " sampleState).1.mpr
      ⟨by decide, by decide⟩,
    ((addCategory_accepts_iff asciiLower "  Poetry " sampleState).2.1
      (by decide)).1,
    (addCategory_accepts_iff asciiLower "" sampleState).2.2.1 (by decide),
    (addCategory_accepts_iff asciiLower " \t\n" sampleState).2.2.1 (by decide),
    (addCategory_accepts_iff asciiLower "SCIENCE" sampleState).2.2.1 (by decide)⟩

/-- The default category list satisfies the invariant. -/
theorem categoryInvariant_default (toLowerCase : String → String)
    (hl : LowerCaseLaws toLowerCase) : CategoryInvariant toLowerCase defaultCategories := by
  refine ⟨by decide, ?_⟩
  intro c hc
  simp only [defaultCategories, List.mem_cons, List.mem_singleton, List.not_mem_nil,
    or_false] at hc
  rcases hc with rfl | rfl | rfl | rfl | rfl
  · refine ⟨by decide, ?_⟩
    rw [hl.fixes_ascii _ (by decide)]
    decide
  · refine ⟨by decide, ?_⟩
    rw [hl.fixes_ascii _ (by decide)]
    decide
  · refine ⟨by decide, ?_⟩
    rw [hl.fixes_ascii _ (by decide)]
    decide
  · refine ⟨by decide, ?_⟩
    rw [hl.fixes_ascii _ (by decide)]
    decide
  · refine ⟨by decide, ?_⟩
    rw [hl.fixes_ascii _ (by decide)]
    decide

/-- Appending an accepted name keeps the invariant. -/
theorem categoryInvariant_append (toLowerCase : String → String)
    (hl : LowerCaseLaws toLowerCase) (name : String) (cats : List String)
    (h : CategoryInvariant toLowerCase cats)
    (h1 : jsTrim (toLowerCase name) ≠ "") (h2 : jsTrim (toLowerCase name) ∉ cats) :
    CategoryInvariant toLowerCase (cats ++ [jsTrim (toLowerCase name)]) := by
  refine ⟨?_, ?_⟩
  · rw [List.nodup_append]
    refine ⟨h.1, List.nodup_singleton _, ?_⟩
    intro a ha hb
    rw [List.mem_singleton] at hb
    exact h2 (hb ▸ ha)
  · intro c hc
    rcases List.mem_append.mp hc with hc | hc
    · exact h.2 c hc
    · rw [List.mem_singleton] at hc
      subst hc
      exact ⟨h1, by rw [hl.stable name, jsTrim_jsTrim]⟩

/-- Removing entries keeps the invariant. -/
theorem categoryInvariant_filter (toLowerCase : String → String) (p : String → Bool)
    (cats : List String) (h : CategoryInvariant toLowerCase cats) :
    CategoryInvariant toLowerCase (cats.filter p) :=
  ⟨h.1.filter p, fun c hc => h.2 c (List.mem_of_mem_filter hc)⟩

/-- The invariant of the category list after `addCategory`. -/
theorem categoryInvariant_addCategory (toLowerCase : String → String)
    (hl : LowerCaseLaws toLowerCase) (name : String) (s : State)
    (h : CategoryInvariant toLowerCase s.categories) :
    CategoryInvariant toLowerCase (addCategory toLowerCase name s).2.categories ∧
      (∀ st, (addCategory toLowerCase name s).2.lsCategories = some st →
        st = (addCategory toLowerCase name s).2.categories ∨ s.lsCategories = some st) := by
  by_cases hc : jsTrim (toLowerCase name) ≠ "" ∧ jsTrim (toLowerCase name) ∉ s.categories
  · rw [addCategory_accept toLowerCase name s hc.1 hc.2]
    refine ⟨categoryInvariant_append toLowerCase hl name s.categories h hc.1 hc.2, ?_⟩
    intro st hst
    left
    simpa using hst.symm
  · have h2 : jsTrim (toLowerCase name) = "" ∨ jsTrim (toLowerCase name) ∈ s.categories := by
      by_cases e : jsTrim (toLowerCase name) = ""
      · exact Or.inl e
      · right
        by_contra hm
        exact hc ⟨e, hm⟩
    rw [addCategory_reject toLowerCase name s h2]
    exact ⟨h, fun st hst => Or.inr hst⟩

/-- The category list and its stored copy after `deleteCategory`. -/
theorem deleteCategory_categories (confirmed : Bool) (name : String) (s : State) :
    (deleteCategory confirmed name s).categories
        = (if confirmed then s.categories.filter (fun c => c != name) else s.categories) ∧
      (deleteCategory confirmed name s).lsCategories
        = (if confirmed then some (s.categories.filter (fun c => c != name))
            else s.lsCategories) := by
  cases confirmed <;> simp [deleteCategory, saveCategories]

/-- The book functions leave the category list and its stored copy alone. -/
theorem book_functions_keep_categories (s : State) :
    (∀ env data, (addBook env data s).categories = s.categories ∧
        (addBook env data s).lsCategories = s.lsCategories) ∧
      (∀ id d, (updateBook id d s).categories = s.categories ∧
        (updateBook id d s).lsCategories = s.lsCategories) ∧
      (∀ confirmed pf cf id, (deleteBook confirmed pf cf id s).categories = s.categories ∧
        (deleteBook confirmed pf cf id s).lsCategories = s.lsCategories) ∧
      (∀ id, (toggleFavorite id s).categories = s.categories ∧
        (toggleFavorite id s).lsCategories = s.lsCategories) := by
  refine ⟨fun env data => ⟨rfl, rfl⟩, ?_, ?_, ?_⟩
  · intro id d
    unfold updateBook
    split
    · exact ⟨rfl, rfl⟩
    · split <;> exact ⟨rfl, rfl⟩
  · intro confirmed pf cf id
    cases confirmed <;> simp [deleteBook, saveToLocalStorage]
  · intro id
    unfold toggleFavorite
    split
    · exact ⟨rfl, rfl⟩
    · split <;> exact ⟨rfl, rfl⟩

/-- In every reachable state the category list and its stored copy satisfy the
invariant. -/
theorem reachable_categoryInvariant (toLowerCase : String → String)
    (hl : LowerCaseLaws toLowerCase) (s : State) (hs : Reachable toLowerCase s) :
    CategoryInvariant toLowerCase s.categories ∧
      ∀ st, s.lsCategories = some st → CategoryInvariant toLowerCase st := by
  induction hs with
  | start s h =>
    have hd := categoryInvariant_default toLowerCase hl
    simp only [loadCategories, h, saveCategories]
    exact ⟨hd, fun st hst => by cases hst; exact hd⟩
  | loadCategories s _ ih =>
    cases hls : s.lsCategories with
    | none =>
      have hd := categoryInvariant_default toLowerCase hl
      simp only [loadCategories, hls, saveCategories]
      exact ⟨hd, fun st hst => by cases hst; exact hd⟩
    | some stored =>
      simp only [loadCategories, hls]
      exact ⟨ih.2 stored hls, fun st hst => by cases hst; exact ih.2 stored hls⟩
  | addCategory name s _ ih =>
    have h := categoryInvariant_addCategory toLowerCase hl name s ih.1
    refine ⟨h.1, fun st hst => ?_⟩
    rcases h.2 st hst with e | e
    · rw [e]; exact h.1
    · exact ih.2 st e
  | deleteCategory confirmed name s _ ih =>
    have h := deleteCategory_categories confirmed name s
    rw [h.1, h.2]
    cases confirmed
    · exact ih
    · simp only [if_true]
      have hf := categoryInvariant_filter toLowerCase (fun c => c != name) s.categories ih.1
      exact ⟨hf, fun st hst => by cases hst; exact hf⟩
  | addBook env data s _ ih =>
    have h := (book_functions_keep_categories s).1 env data
    rw [h.1, h.2]; exact ih
  | updateBook id d s _ ih =>
    have h := (book_functions_keep_categories s).2.1 id d
    rw [h.1, h.2]; exact ih
  | deleteBook confirmed pf cf id s _ ih =>
    have h := (book_functions_keep_categories s).2.2.1 confirmed pf cf id
    rw [h.1, h.2]; exact ih
  | toggleFavorite id s _ ih =>
    have h := (book_functions_keep_categories s).2.2.2 id
    rw [h.1, h.2]; exact ih

/-- C10: for a `toLowerCase` with the stated laws, the invariant (no duplicate entries,
every entry a non-empty string equal to its own lowercased, trimmed form) holds for the
default category list, is preserved by every `addCategory` and every `deleteCategory`
call, and so holds in every reachable state. -/
theorem category_invariant_holds (toLowerCase : String → String)
    (hl : LowerCaseLaws toLowerCase) :
    CategoryInvariant toLowerCase defaultCategories ∧
      (∀ (name : String) (s : State), CategoryInvariant toLowerCase s.categories →
        CategoryInvariant toLowerCase (addCategory toLowerCase name s).2.categories) ∧
      (∀ (confirmed : Bool) (name : String) (s : State),
        CategoryInvariant toLowerCase s.categories →
        CategoryInvariant toLowerCase (deleteCategory confirmed name s).categories) ∧
      (∀ s : State, Reachable toLowerCase s →
        CategoryInvariant toLowerCase s.categories) := by
  refine ⟨categoryInvariant_default toLowerCase hl, ?_, ?_, ?_⟩
  · intro name s h
    exact (categoryInvariant_addCategory toLowerCase hl name s h).1
  · intro confirmed name s h
    rw [(deleteCategory_categories confirmed name s).1]
    cases confirmed
    · exact h
    · exact categoryInvariant_filter toLowerCase (fun c => c != name) s.categories h
  · intro s hs
    exact (reachable_categoryInvariant toLowerCase hl s hs).1

/-- C10, witness: the laws hold of ASCII lowercasing, and with it the invariant holds of
the defaults, is preserved, and holds in every reachable state. -/
theorem category_invariant_holds_witness :
    LowerCaseLaws asciiLower ∧
      (CategoryInvariant asciiLower defaultCategories ∧
        (∀ (name : String) (s : State), CategoryInvariant asciiLower s.categories →
          CategoryInvariant asciiLower (addCategory asciiLower name s).2.categories) ∧
        (∀ (confirmed : Bool) (name : String) (s : State),
          CategoryInvariant asciiLower s.categories →
          CategoryInvariant asciiLower (deleteCategory confirmed name s).categories) ∧
        (∀ s : State, Reachable asciiLower s → CategoryInvariant asciiLower s.categories)) :=
  ⟨asciiLower_laws, category_invariant_holds asciiLower asciiLower_laws⟩

/-! ## Deleting a category -/

/-- C11: a confirmed `deleteCategory(name)` leaves the book list (and the database and
the stored books) as it was, so books of that category keep it; the category list
becomes the old one without the entries equal to `name`, the others in their old order,
and is persisted. An unconfirmed call changes nothing. -/
theorem deleteCategory_frame (name : String) (s : State) :
    (deleteCategory true name s).books = s.books ∧
      (deleteCategory true name s).db = s.db ∧
      (deleteCategory true name s).lsBooks = s.lsBooks ∧
      name ∉ (deleteCategory true name s).categories ∧
      (deleteCategory true name s).categories = s.categories.filter (fun c => decide (c ≠ name)) ∧
      (deleteCategory true name s).categories.Sublist s.categories ∧
      (∀ c ∈ s.categories, c ≠ name → c ∈ (deleteCategory true name s).categories) ∧
      (deleteCategory true name s).lsCategories
        = some (deleteCategory true name s).categories ∧
      deleteCategory false name s = s := by
  have hcat : (deleteCategory true name s).categories
      = s.categories.filter (fun c => decide (c ≠ name)) := by
    have hfun : (fun c : String => c != name) = (fun c => decide (c ≠ name)) := by
      funext c
      by_cases h : c = name <;> simp [bne, h]
    simp only [deleteCategory, saveCategories, if_true, hfun]
  refine ⟨rfl, rfl, rfl, ?_, hcat, ?_, ?_, ?_, rfl⟩
  · rw [hcat]
    simp [List.mem_filter]
  · rw [hcat]
    exact List.filter_sublist _
  · intro c hc hne
    rw [hcat]
    simp [List.mem_filter, hc, hne]
  · simp [deleteCategory, saveCategories]

/-- C11, witness: deleting the category `fiction` of the sample state keeps the two
books, of which `b1` has that category, and the other four categories. -/
theorem deleteCategory_frame_witness :
    (deleteCategory true "fiction" sampleState).books = [bookB1, bookB2] ∧
      bookB1.category = "fiction" ∧
      (deleteCategory true "fiction" sampleState).categories
        = ["non-fiction", "science", "technology", "business"] ∧
      "fiction" ∉ (deleteCategory true "fiction" sampleState).categories :=
  ⟨(deleteCategory_frame "fiction" sampleState).1, rfl, by decide,
    (deleteCategory_frame "fiction" sampleState).2.2.2.1⟩

/-! ## Filter and sort -/

/-- The method `includes` tests for a run of consecutive characters. -/
theorem jsIncludes_iff (s t : String) : jsIncludes s t = true ↔ t.data <:+: s.data := by
  simp only [jsIncludes, List.any_eq_true, List.mem_tails, List.isPrefixOf_iff_prefix,
    List.infix_iff_prefix_suffix]
  constructor
  · rintro ⟨u, hu, ht⟩
    exact ⟨u, ht, hu⟩
  · rintro ⟨u, ht, hu⟩
    exact ⟨u, hu, ht⟩

/-- The number of occurrences of an element after a filter. -/
theorem count_filter_eq {α : Type} [DecidableEq α] (p : α → Bool) (b : α) (l : List α) :
    (l.filter p).count b = if p b = true then l.count b else 0 := by
  by_cases h : p b = true
  · rw [if_pos h, List.count_filter h]
  · rw [if_neg h]
    apply List.count_eq_zero_of_not_mem
    intro hm
    exact h (List.mem_filter.mp hm).2

/-- The test that `applyFilters` applies to a book before sorting. -/
theorem applyFilters_count (toLowerCase : String → String)
    (localeCompare : String → String → Int) (searchInput categoryFilter sortFilter : String)
    (books : List Book) (b : Book) :
    (applyFilters toLowerCase localeCompare searchInput categoryFilter sortFilter books).count b
      = if ((jsTrim (toLowerCase searchInput) = "" ∨
            searchMatches toLowerCase (jsTrim (toLowerCase searchInput)) b = true) ∧
          (categoryFilter = "all" ∨ b.category = categoryFilter))
        then books.count b else 0 := by
  unfold applyFilters
  simp only []
  have hperm : ∀ (c : Book → Book → Int) (l : List Book), (jsSort c l).count b = l.count b :=
    fun c l => (List.perm_insertionSort _ l).count_eq b
  have hsorted : ∀ l : List Book,
      (if sortFilter = "title" then jsSort (fun a b => localeCompare a.title b.title) l
        else if sortFilter = "author" then jsSort (fun a b => localeCompare a.author b.author) l
        else jsSort (fun a b => b.dateAdded - a.dateAdded) l).count b = l.count b := by
    intro l
    split_ifs <;> exact hperm _ l
  rw [hsorted]
  by_cases ht : jsTrim (toLowerCase searchInput) = "" <;>
    by_cases hc : categoryFilter = "all" <;>
    by_cases hm : searchMatches toLowerCase (jsTrim (toLowerCase searchInput)) b = true <;>
    by_cases hcat : b.category = categoryFilter <;>
    simp [ht, hc, hm, hcat, count_filter_eq]

/-- The search test of the code says what the specification says. -/
theorem searchMatches_iff (toLowerCase : String → String) (term : String) (b : Book) :
    searchMatches toLowerCase term b = true ↔
      (term.data <:+: (toLowerCase b.title).data ∨
        term.data <:+: (toLowerCase b.author).data ∨
        term.data <:+: (toLowerCase b.category).data ∨
        ∃ n, b.pdfName = some n ∧ n ≠ "" ∧ term.data <:+: (toLowerCase n).data) := by
  unfold searchMatches
  cases hp : b.pdfName with
  | none => simp [jsIncludes_iff, or_assoc]
  | some n => simp [jsIncludes_iff, or_assoc]

/-- C12: the list `applyFilters` renders holds every selected book as often as the book
list holds it (once, when the list holds it once) and no other book; a book is selected
when the cleaned search term is empty or occurs in its lowercased title, author, category
or PDF file name, and the category filter is `all` or equals its category. With the
filter `all` the category plays no role. -/
theorem applyFilters_selects (toLowerCase : String → String)
    (localeCompare : String → String → Int) (searchInput categoryFilter sortFilter : String)
    (books : List Book) (b : Book) :
    (Selected toLowerCase searchInput categoryFilter b →
        (applyFilters toLowerCase localeCompare searchInput categoryFilter sortFilter
          books).count b = books.count b) ∧
      (¬ Selected toLowerCase searchInput categoryFilter b →
        (applyFilters toLowerCase localeCompare searchInput categoryFilter sortFilter
          books).count b = 0) ∧
      (b ∈ applyFilters toLowerCase localeCompare searchInput categoryFilter sortFilter books
        ↔ b ∈ books ∧ Selected toLowerCase searchInput categoryFilter b) ∧
      (Selected toLowerCase searchInput "all" b ↔
        (jsTrim (toLowerCase searchInput) = "" ∨
          searchMatches toLowerCase (jsTrim (toLowerCase searchInput)) b = true)) := by
  have hsel : ∀ cf, Selected toLowerCase searchInput cf b ↔
      ((jsTrim (toLowerCase searchInput) = "" ∨
          searchMatches toLowerCase (jsTrim (toLowerCase searchInput)) b = true) ∧
        (cf = "all" ∨ b.category = cf)) := by
    intro cf
    unfold Selected
    rw [searchMatches_iff]
  have hcount := applyFilters_count toLowerCase localeCompare searchInput categoryFilter
    sortFilter books b
  refine ⟨?_, ?_, ?_, ?_⟩
  · intro h
    rw [hcount, if_pos ((hsel _).mp h)]
  · intro h
    rw [hcount, if_neg (fun h2 => h ((hsel _).mpr h2))]
  · rw [← List.count_pos_iff, hcount, hsel]
    by_cases h : ((jsTrim (toLowerCase searchInput) = "" ∨
          searchMatches toLowerCase (jsTrim (toLowerCase searchInput)) b = true) ∧
        (categoryFilter = "all" ∨ b.category = categoryFilter))
    · rw [if_pos h, List.count_pos_iff]
      exact ⟨fun hb => ⟨hb, h⟩, fun hb => hb.1⟩
    · rw [if_neg h]
      simp [h]
  · rw [hsel]
    simp

/-- C12, witness: the search input `APPLE` selects the book whose PDF file is
`Apple.PDF` and not the other one. -/
theorem applyFilters_selects_witness :
    (applyFilters asciiLower caseBlindCompare " APPLE.p" "all" "recent"
        [bananaBook, appleBook]).count appleBook = [bananaBook, appleBook].count appleBook ∧
      applyFilters asciiLower caseBlindCompare " APPLE.p" "all" "recent"
        [bananaBook, appleBook] = [appleBook] :=
  ⟨(applyFilters_selects asciiLower caseBlindCompare " APPLE.p" "all" "recent"
      [bananaBook, appleBook] appleBook).1
      ⟨Or.inr (Or.inr (Or.inr (Or.inr ⟨"Apple.PDF", rfl, by decide, by decide⟩))),
        Or.inl rfl⟩,
    by decide⟩

/-- The comparison `lexCompare` compares any two lists. -/
theorem lexCompare_total : ∀ x y : List Nat, lexCompare x y ≤ 0 ∨ lexCompare y x ≤ 0
  | [], [] => by simp [lexCompare]
  | [], _ :: _ => by simp [lexCompare]
  | _ :: _, [] => by simp [lexCompare]
  | a :: as, b :: bs => by
    have ih := lexCompare_total as bs
    simp only [lexCompare]
    by_cases h1 : a < b
    · simp [h1]
    · by_cases h2 : b < a
      · simp [h1, h2]
      · simpa [h1, h2] using ih

/-- The comparison `lexCompare` is transitive. -/
theorem lexCompare_trans : ∀ x y z : List Nat,
    lexCompare x y ≤ 0 → lexCompare y z ≤ 0 → lexCompare x z ≤ 0
  | [], _, [] => by simp [lexCompare]
  | [], _, _ :: _ => by simp [lexCompare]
  | _ :: _, [], _ => by simp [lexCompare]
  | _ :: _, _ :: _, [] => by simp [lexCompare]
  | a :: as, b :: bs, c :: cs => by
    have ih := lexCompare_trans as bs cs
    simp only [lexCompare]
    intro hxy hyz
    by_cases h1 : a < b
    · by_cases h2 : b < c
      · have h3 : a < c := Nat.lt_trans h1 h2
        simp [h3]
      · by_cases h2b : c < b
        · simp [h2, h2b] at hyz
        · have hbc : b = c := by omega
          subst hbc
          simp [h1]
    · by_cases h1b : b < a
      · simp [h1, h1b] at hxy
      · have hab : a = b := by omega
        subst hab
        simp only [h1, if_false] at hxy
        by_cases h2 : a < c
        · simp [h2]
        · by_cases h2b : c < a
          · simp [h2, h2b] at hyz
          · simp only [h2, h2b, if_false] at hyz ⊢
            exact ih hxy hyz

/-- The comparison `caseBlindCompare` satisfies the laws required of `localeCompare`. -/
theorem caseBlindCompare_laws : LocaleCompareLaws caseBlindCompare where
  total := fun _ _ => lexCompare_total _ _
  trans := fun _ _ _ => lexCompare_trans _ _ _

/-- A sort by a comparator that is a total preorder yields a list sorted by it. -/
theorem jsSort_pairwise {α : Type} (compare : α → α → Int)
    (htotal : ∀ a b, compare a b ≤ 0 ∨ compare b a ≤ 0)
    (htrans : ∀ a b c, compare a b ≤ 0 → compare b c ≤ 0 → compare a c ≤ 0)
    (l : List α) : (jsSort compare l).Pairwise (fun a b => compare a b ≤ 0) := by
  haveI : IsTotal α (fun a b => compare a b ≤ 0) := ⟨htotal⟩
  haveI : IsTrans α (fun a b => compare a b ≤ 0) := ⟨htrans⟩
  exact List.sorted_insertionSort (fun a b => compare a b ≤ 0) l

/-- C13: when `localeCompare` compares any two strings and is transitive, the list
`applyFilters` renders with the sort key `title` is ascending by title: every book has
`a.title.localeCompare(b.title) <= 0` against every later book, and so against the next
one. When the comparison puts `apple` before `Banana`, two books with these titles that
pass the filters are rendered `apple` first, whatever their order in the book list. -/
theorem applyFilters_title_sorted (toLowerCase : String → String)
    (localeCompare : String → String → Int) (hc : LocaleCompareLaws localeCompare)
    (searchInput categoryFilter : String) (books : List Book) :
    (applyFilters toLowerCase localeCompare searchInput categoryFilter "title"
        books).Pairwise (fun a b => localeCompare a.title b.title ≤ 0) ∧
      (applyFilters toLowerCase localeCompare searchInput categoryFilter "title"
        books).Chain' (fun a b => localeCompare a.title b.title ≤ 0) ∧
      (∀ x y : Book, x.title = "Banana" → y.title = "apple" →
        0 < localeCompare "Banana" "apple" → jsTrim (toLowerCase searchInput) = "" →
        applyFilters toLowerCase localeCompare searchInput "all" "title" [x, y] = [y, x] ∧
        applyFilters toLowerCase localeCompare searchInput "all" "title" [y, x] = [y, x]) := by
  have hpw : (applyFilters toLowerCase localeCompare searchInput categoryFilter "title"
      books).Pairwise (fun a b => localeCompare a.title b.title ≤ 0) := by
    unfold applyFilters
    simp only [if_true]
    exact jsSort_pairwise (fun a b : Book => localeCompare a.title b.title)
      (fun a b => hc.total a.title b.title)
      (fun a b c => hc.trans a.title b.title c.title) _
  refine ⟨hpw, List.Pairwise.chain' hpw, ?_⟩
  intro x y hx hy hlt hterm
  have h1 : ¬ localeCompare "Banana" "apple" ≤ 0 := by omega
  have h2 : localeCompare "apple" "Banana" ≤ 0 := by
    rcases hc.total "apple" "Banana" with h | h
    · exact h
    · exact absurd h h1
  constructor
  · simp [applyFilters, hterm, jsSort, hx, hy, h1]
  · simp [applyFilters, hterm, jsSort, hx, hy, h2]

/-- C13, witness: with the comparison that ignores case, the books `Banana` and `apple`
are rendered `apple` first. -/
theorem applyFilters_title_sorted_witness :
    applyFilters asciiLower caseBlindCompare "" "all" "title" [bananaBook, appleBook]
        = [appleBook, bananaBook] ∧
      applyFilters asciiLower caseBlindCompare "" "all" "title" [appleBook, bananaBook]
        = [appleBook, bananaBook] :=
  (applyFilters_title_sorted asciiLower caseBlindCompare caseBlindCompare_laws "" "all"
    []).2.2 bananaBook appleBook rfl rfl (by decide) (by decide)

/-- C14: with the sort key `recent`, or any key other than `title` and `author`, the list
`applyFilters` renders is ordered by creation time, most recent first: no book is older
than a book that comes after it. Of two books that pass the filters the one added later
is rendered first, whatever their order in the book list. -/
theorem applyFilters_recent_sorted (toLowerCase : String → String)
    (localeCompare : String → String → Int)
    (searchInput categoryFilter sortFilter : String) (books : List Book)
    (htitle : sortFilter ≠ "title") (hauthor : sortFilter ≠ "author") :
    (applyFilters toLowerCase localeCompare searchInput categoryFilter sortFilter
        books).Pairwise (fun a b => b.dateAdded ≤ a.dateAdded) ∧
      (∀ l1 x l2, applyFilters toLowerCase localeCompare searchInput categoryFilter
          sortFilter books = l1 ++ x :: l2 → ∀ y ∈ l2, y.dateAdded ≤ x.dateAdded) ∧
      (∀ x y : Book, x.dateAdded < y.dateAdded → jsTrim (toLowerCase searchInput) = "" →
        applyFilters toLowerCase localeCompare searchInput "all" sortFilter [x, y] = [y, x] ∧
        applyFilters toLowerCase localeCompare searchInput "all" sortFilter [y, x] = [y, x]) := by
  have hpw : (applyFilters toLowerCase localeCompare searchInput categoryFilter sortFilter
      books).Pairwise (fun a b => b.dateAdded ≤ a.dateAdded) := by
    unfold applyFilters
    simp only [if_neg htitle, if_neg hauthor]
    have h := jsSort_pairwise (fun a b : Book => b.dateAdded - a.dateAdded)
      (fun a b => by
        show b.dateAdded - a.dateAdded ≤ 0 ∨ a.dateAdded - b.dateAdded ≤ 0
        omega)
      (fun a b c h1 h2 => by
        show c.dateAdded - a.dateAdded ≤ 0
        have h3 : b.dateAdded - a.dateAdded ≤ 0 := h1
        have h4 : c.dateAdded - b.dateAdded ≤ 0 := h2
        omega)
      (if categoryFilter != "all" then
        (if jsTrim (toLowerCase searchInput) != "" then
          books.filter (searchMatches toLowerCase (jsTrim (toLowerCase searchInput)))
          else books).filter (fun book => book.category == categoryFilter)
        else (if jsTrim (toLowerCase searchInput) != "" then
          books.filter (searchMatches toLowerCase (jsTrim (toLowerCase searchInput)))
          else books))
    exact h.imp (fun hab => by omega)
  refine ⟨hpw, ?_, ?_⟩
  · intro l1 x l2 hsplit y hy
    rw [hsplit] at hpw
    have h2 := (List.pairwise_append.mp hpw).2.1
    exact (List.pairwise_cons.mp h2).1 y hy
  · intro x y hlt hterm
    have h1 : ¬ y.dateAdded ≤ x.dateAdded := by omega
    have h2 : ¬ y.dateAdded < x.dateAdded := by omega
    constructor
    · simp [applyFilters, hterm, jsSort, htitle, hauthor, h1]
    · simp [applyFilters, hterm, jsSort, htitle, hauthor, h2]

/-- C14, witness: with the sort key `recent` the book added at time 2 is rendered before
the book added at time 1. -/
theorem applyFilters_recent_sorted_witness :
    (applyFilters asciiLower caseBlindCompare "" "all" "recent"
        [bananaBook, appleBook]).Pairwise (fun a b => b.dateAdded ≤ a.dateAdded) ∧
      applyFilters asciiLower caseBlindCompare "" "all" "recent" [bananaBook, appleBook]
        = [appleBook, bananaBook] :=
  ⟨(applyFilters_recent_sorted asciiLower caseBlindCompare "" "all" "recent"
      [bananaBook, appleBook] (by decide) (by decide)).1,
    ((applyFilters_recent_sorted asciiLower caseBlindCompare "" "all" "recent"
      [] (by decide) (by decide)).2.2 bananaBook appleBook (by decide) (by decide)).1⟩

/-! ## Blob store -/

/-- After `put(record)` the key of the record yields the record. -/
theorem storeGet_storePut_self {α : Type} (key : α → String) (record : α) (store : List α) :
    storeGet key (key record) (storePut key record store) = some record := by
  simp [storeGet, storePut]

/-- The method `put(record)` leaves every other key as it was. -/
theorem storeGet_storePut_other {α : Type} (key : α → String) (record : α) (k : String)
    (hne : k ≠ key record) (store : List α) :
    storeGet key k (storePut key record store) = storeGet key k store := by
  have h := storeGet_storeDelete_other key (key record) k hne store
  have hk : ¬ key record = k := fun e => hne e.symm
  simpa [storeGet, storePut, storeDelete, List.find?_cons, hk] using h

/-- After `put(record)` exactly one record is stored under the key of the record. -/
theorem storePut_unique {α : Type} (key : α → String) (record : α) (store : List α) :
    (storePut key record store).filter (fun r => key r == key record) = [record] := by
  simp [storePut, List.filter_cons, List.filter_filter]

/-- A key under which the store has no record is not found. -/
theorem storeGet_absent {α : Type} (key : α → String) (k : String) (store : List α)
    (h : ∀ r ∈ store, key r ≠ k) : storeGet key k store = none := by
  simp only [storeGet, List.find?_eq_none]
  intro r hr
  simpa using h r hr

/-- C17: on an opened store whose requests succeed, in each partition: `put(id, file)`
resolves with `id`; a following `get(id)` resolves with a record whose id is `id` and
whose file name, MIME type and bytes are those of the file; it is the only record under
`id`, so an earlier one is replaced; every other identifier, and the other partition, is
as before; and `get` of an identifier that is not stored, or was deleted, resolves with
not-found instead of being rejected. -/
theorem blob_store_put_get (d : Db) (now : Int) (id : String) (file : JsFile) :
    ((storePDF none now id file (some d)).1 = .ok id ∧
      (∃ d2 r, (storePDF none now id file (some d)).2 = some d2 ∧
        getPDF none id (some d2) = .ok (some r) ∧
        r.id = id ∧ r.fileName = file.name ∧ r.fileType = file.type ∧ r.blob = file ∧
        d2.pdfs.filter (fun x => x.id == id) = [r] ∧ d2.images = d.images) ∧
      (∀ k, k ≠ id →
        getPDF none k (storePDF none now id file (some d)).2 = getPDF none k (some d)) ∧
      (∀ k, (∀ r ∈ d.pdfs, r.id ≠ k) → getPDF none k (some d) = .ok none) ∧
      (∀ k, getPDF none k (deletePDF none k (some d)).2 = .ok none)) ∧
    ((storeImage none now id file (some d)).1 = .ok id ∧
      (∃ d2 r, (storeImage none now id file (some d)).2 = some d2 ∧
        getImage none id (some d2) = .ok (some r) ∧
        r.id = id ∧ r.fileName = file.name ∧ r.fileType = file.type ∧ r.blob = file ∧
        d2.images.filter (fun x => x.id == id) = [r] ∧ d2.pdfs = d.pdfs) ∧
      (∀ k, k ≠ id →
        getImage none k (storeImage none now id file (some d)).2
          = getImage none k (some d)) ∧
      (∀ k, (∀ r ∈ d.images, r.id ≠ k) → getImage none k (some d) = .ok none) ∧
      (∀ k, getImage none k (deleteImage none k (some d)).2 = .ok none)) := by
  refine ⟨⟨rfl, ?_, ?_, ?_, ?_⟩, ⟨rfl, ?_, ?_, ?_, ?_⟩⟩
  · refine ⟨_, ⟨id, id, file.name, file.type, file.size, file, now⟩, rfl, ?_, rfl, rfl, rfl,
      rfl, ?_, rfl⟩
    · simp only [getPDF]
      exact congrArg Except.ok
        (storeGet_storePut_self PdfRecord.id ⟨id, id, file.name, file.type, file.size, file, now⟩
          d.pdfs)
    · exact storePut_unique PdfRecord.id ⟨id, id, file.name, file.type, file.size, file, now⟩
        d.pdfs
  · intro k hk
    simp only [storePDF, getPDF]
    exact congrArg Except.ok (storeGet_storePut_other PdfRecord.id _ k hk d.pdfs)
  · intro k hk
    simp only [getPDF]
    exact congrArg Except.ok (storeGet_absent PdfRecord.id k d.pdfs hk)
  · intro k
    simp only [deletePDF, getPDF]
    exact congrArg Except.ok (storeGet_storeDelete_self PdfRecord.id k d.pdfs)
  · refine ⟨_, ⟨id, file.name, file.type, file, now⟩, rfl, ?_, rfl, rfl, rfl, rfl, ?_, rfl⟩
    · simp only [getImage]
      exact congrArg Except.ok
        (storeGet_storePut_self ImageRecord.id ⟨id, file.name, file.type, file, now⟩ d.images)
    · exact storePut_unique ImageRecord.id ⟨id, file.name, file.type, file, now⟩ d.images
  · intro k hk
    simp only [storeImage, getImage]
    exact congrArg Except.ok (storeGet_storePut_other ImageRecord.id _ k hk d.images)
  · intro k hk
    simp only [getImage]
    exact congrArg Except.ok (storeGet_absent ImageRecord.id k d.images hk)
  · intro k
    simp only [deleteImage, getImage]
    exact congrArg Except.ok (storeGet_storeDelete_self ImageRecord.id k d.images)

/-- C17, witness: a new cover stored under `cover_b1` in the sample database replaces the
old one and leaves the avatar alone; the key `b9` was never stored. -/
theorem blob_store_put_get_witness :
    getImage none "admin_avatar" (storeImage none 9 "cover_b1" dunePdf (some sampleDb)).2
        = getImage none "admin_avatar" (some sampleDb) ∧
      getPDF none "b9" (some sampleDb) = .ok none ∧
      getImage none "cover_b1" (storeImage none 9 "cover_b1" dunePdf (some sampleDb)).2
        = .ok (some ⟨"cover_b1", "dune.pdf", "application/pdf", dunePdf, 9⟩) :=
  ⟨(blob_store_put_get sampleDb 9 "cover_b1" dunePdf).2.2.2.1 "admin_avatar" (by decide),
    (blob_store_put_get sampleDb 9 "cover_b1" dunePdf).1.2.2.2.1 "b9" (by decide),
    rfl⟩

/-- C18, counterexample: with the database never opened `getImage` is not rejected with
`Database not initialized`; it resolves with `null`. -/
theorem getImage_unopened_resolves :
    getImage none "cover_b1" none = .ok none ∧
      getImage none "cover_b1" none ≠ .error "Database not initialized" := by
  refine ⟨rfl, ?_⟩
  intro h
  cases h

/-- C18, amended: with the database never opened, `storePDF`, `getPDF`, `deletePDF`,
`storeImage` and `deleteImage` are rejected with `Database not initialized`, `getImage`
resolves with `null`, and the database stays unopened, so no stored data changes. -/
theorem blob_store_unopened (fault : Option String) (now : Int) (id : String)
    (file : JsFile) :
    storePDF fault now id file none = (.error "Database not initialized", none) ∧
      getPDF fault id none = .error "Database not initialized" ∧
      deletePDF fault id none = (.error "Database not initialized", none) ∧
      storeImage fault now id file none = (.error "Database not initialized", none) ∧
      deleteImage fault id none = (.error "Database not initialized", none) ∧
      getImage fault id none = .ok none :=
  ⟨rfl, rfl, rfl, rfl, rfl, rfl⟩

/-- C19: whatever the outcome of the two attachment deletions (success, nothing stored
under the key, a failed request, a database that was never opened), a confirmed
`deleteBook(id)` returns normally, with the records of that identifier removed from the
book list, the other records kept in their order, and the shortened list persisted. -/
theorem deleteBook_survives_blob_errors (pdfFault coverFault : Option String) (id : String)
    (s : State) :
    (deleteBook true pdfFault coverFault id s).books
        = s.books.filter (fun b => decide (b.id ≠ id)) ∧
      (∀ x ∈ (deleteBook true pdfFault coverFault id s).books, x.id ≠ id) ∧
      (∀ x ∈ s.books, x.id ≠ id → x ∈ (deleteBook true pdfFault coverFault id s).books) ∧
      (deleteBook true pdfFault coverFault id s).lsBooks
        = some (s.books.filter (fun b => decide (b.id ≠ id))) ∧
      (deleteBook true pdfFault coverFault id s).categories = s.categories := by
  have hfun : (fun b : Book => !(b.id == id)) = (fun b => decide (b.id ≠ id)) := by
    funext b
    by_cases h : b.id = id <;> simp [h]
  have hbooks : (deleteBook true pdfFault coverFault id s).books
      = s.books.filter (fun b => decide (b.id ≠ id)) := by
    rw [deleteBook_books, hfun]
  have hls : (deleteBook true pdfFault coverFault id s).lsBooks
      = some (deleteBook true pdfFault coverFault id s).books := by
    simp [deleteBook, saveToLocalStorage]
  refine ⟨hbooks, ?_, ?_, ?_, ?_⟩
  · intro x hx
    rw [hbooks] at hx
    simpa using (List.mem_filter.mp hx).2
  · intro x hx hne
    rw [hbooks]
    simp [List.mem_filter, hx, hne]
  · rw [hls, hbooks]
  · simp [deleteBook, saveToLocalStorage]

/-- C19, witness: the delete request of the PDF fails and the image store reports a
fault as well, yet the book `b1` is removed; the same with a database never opened. -/
theorem deleteBook_survives_blob_errors_witness :
    (deletePDF (some "AbortError") "b1" sampleState.db).1 = .error "AbortError" ∧
      (∀ x ∈ (deleteBook true (some "AbortError") (some "AbortError") "b1"
          sampleState).books, x.id ≠ "b1") ∧
      (deleteBook true none none "b1" ⟨[bookB1, bookB2], [], none, none, none⟩).books
        = [bookB2] :=
  ⟨rfl,
    (deleteBook_survives_blob_errors (some "AbortError") (some "AbortError") "b1"
      sampleState).2.1,
    by decide⟩

/-! ## The book form -/

/-- The method `find` returns the first match. -/
theorem find?_first_match {α : Type} (p : α → Bool) (b : α) (post : List α)
    (hb : p b = true) : ∀ pre : List α, (∀ x ∈ pre, p x = false) →
      (pre ++ b :: post).find? p = some b
  | [], _ => by simp [List.find?_cons, hb]
  | a :: pre, hpre => by
    have ha : p a = false := hpre a (by simp)
    have ih := find?_first_match p b post hb pre (fun x hx => hpre x (by simp [hx]))
    simp [List.find?_cons, ha, ih]

/-- The two outcomes of `storePDF`: rejected with the database as it was, or resolved
with the record put into the PDF store. -/
theorem storePDF_cases (fault : Option String) (now : Int) (id : String) (f : JsFile)
    (db : Option Db) :
    (∃ e, storePDF fault now id f db = (.error e, db)) ∨
      (∃ d, db = some d ∧ fault = none ∧
        storePDF fault now id f db
          = (.ok id, some ⟨storePut PdfRecord.id
              ⟨id, id, f.name, f.type, f.size, f, now⟩ d.pdfs, d.images⟩)) := by
  cases db with
  | none => exact Or.inl ⟨_, rfl⟩
  | some d =>
    cases fault with
    | some e => exact Or.inl ⟨e, rfl⟩
    | none => exact Or.inr ⟨d, rfl, rfl, rfl⟩

/-- The two outcomes of `storeImage`: rejected with the database as it was, or resolved
with the record put into the image store. -/
theorem storeImage_cases (fault : Option String) (now : Int) (id : String) (f : JsFile)
    (db : Option Db) :
    (∃ e, storeImage fault now id f db = (.error e, db)) ∨
      (∃ d, db = some d ∧ fault = none ∧
        storeImage fault now id f db
          = (.ok id, some ⟨d.pdfs, storePut ImageRecord.id
              ⟨id, f.name, f.type, f, now⟩ d.images⟩)) := by
  cases db with
  | none => exact Or.inl ⟨_, rfl⟩
  | some d =>
    cases fault with
    | some e => exact Or.inl ⟨e, rfl⟩
    | none => exact Or.inr ⟨d, rfl, rfl, rfl⟩

/-- The function `updateBook` does not touch the database. -/
theorem updateBook_db (id : String) (d : BookPatch) (s : State) :
    (updateBook id d s).db = s.db := by
  unfold updateBook
  split
  · rfl
  · split <;> rfl

/-- The function `getPDF` reads the PDF store only. -/
theorem getPDF_congr (fault : Option String) (k : String) (db1 db2 : Option Db)
    (h : db1.map Db.pdfs = db2.map Db.pdfs) : getPDF fault k db1 = getPDF fault k db2 := by
  cases db1 <;> cases db2 <;> simp_all [getPDF]

/-- The function `getImage` reads the image store only. -/
theorem getImage_congr (fault : Option String) (k : String) (db1 db2 : Option Db)
    (h : db1.map Db.images = db2.map Db.images) :
    getImage fault k db1 = getImage fault k db2 := by
  cases db1 <;> cases db2 <;> simp_all [getImage]

/-- The book list after `updateBook` on a state with known first match, whatever its
database. -/
theorem updateBook_with_db (id : String) (d : BookPatch) (s : State) (db : Option Db)
    (pre post : List Book) (b : Book) (hs : s.books = pre ++ b :: post)
    (hpre : ∀ x ∈ pre, (x.id == id) = false) (hb : (b.id == id) = true) :
    (updateBook id d { s with db := db }).books = pre ++ mergeBook b d :: post ∧
      (updateBook id d { s with db := db }).db = db :=
  ⟨(updateBook_books_split id d { s with db := db } pre post b hs hpre hb).1,
    updateBook_db id d { s with db := db }⟩

/-- The edit branch without a new PDF: the edited book keeps its `pdfName`, and the PDF
store is as before. -/
theorem submitEdit_without_pdf (env : Env) (pdfFault coverFault : Option String)
    (coverFile : Option JsFile) (formData : FormData) (id : String) (s : State)
    (pre post : List Book) (b : Book) (hs : s.books = pre ++ b :: post)
    (hpre : ∀ x ∈ pre, (x.id == id) = false) (hb : (b.id == id) = true) :
    (∃ b2, (submitEdit env pdfFault coverFault none coverFile formData id s).1.books
        = pre ++ b2 :: post ∧ b2.id = b.id ∧ b2.pdfName = b.pdfName) ∧
      (submitEdit env pdfFault coverFault none coverFile formData id s).1.db.map Db.pdfs
        = s.db.map Db.pdfs := by
  have hfind : s.books.find? (fun x => x.id == id) = some b := by
    rw [hs]
    exact find?_first_match (fun x : Book => x.id == id) b post hb pre hpre
  cases coverFile with
  | none =>
    have hres : submitEdit env pdfFault coverFault none none formData id s
        = (updateBook id
            (FormData.toPatch { formData with pdfName := b.pdfName, coverId := b.coverId })
            { s with db := s.db }, none) := by
      simp only [submitEdit, hfind]
    have hu := updateBook_with_db id
      (FormData.toPatch { formData with pdfName := b.pdfName, coverId := b.coverId })
      s s.db pre post b hs hpre hb
    rw [hres]
    exact ⟨⟨_, hu.1, rfl, rfl⟩, by rw [hu.2]⟩
  | some f =>
    rcases storeImage_cases coverFault env.newDate (coverKey id) f s.db with
      ⟨e, he⟩ | ⟨d, hd, -, hok⟩
    · have hres : submitEdit env pdfFault coverFault none (some f) formData id s
          = ({ s with db := s.db }, some id) := by
        simp only [submitEdit, hfind, he, Except.map]
      rw [hres]
      exact ⟨⟨b, hs, rfl, rfl⟩, rfl⟩
    · have hres : submitEdit env pdfFault coverFault none (some f) formData id s
          = (updateBook id
              (FormData.toPatch
                { formData with pdfName := b.pdfName, coverId := some (coverKey id) })
              { s with db := some ⟨d.pdfs, storePut ImageRecord.id
                  ⟨coverKey id, f.name, f.type, f, env.newDate⟩ d.images⟩ }, none) := by
        simp only [submitEdit, hfind, hok, Except.map]
      have hu := updateBook_with_db id
        (FormData.toPatch { formData with pdfName := b.pdfName, coverId := some (coverKey id) })
        s (some ⟨d.pdfs, storePut ImageRecord.id
          ⟨coverKey id, f.name, f.type, f, env.newDate⟩ d.images⟩) pre post b hs hpre hb
      rw [hres]
      exact ⟨⟨_, hu.1, rfl, rfl⟩, by rw [hu.2, hd]; rfl⟩

/-- The edit branch without a new cover: the edited book keeps its `coverId`, and the
image store is as before. -/
theorem submitEdit_without_cover (env : Env) (pdfFault coverFault : Option String)
    (pdfFile : Option JsFile) (formData : FormData) (id : String) (s : State)
    (pre post : List Book) (b : Book) (hs : s.books = pre ++ b :: post)
    (hpre : ∀ x ∈ pre, (x.id == id) = false) (hb : (b.id == id) = true) :
    (∃ b2, (submitEdit env pdfFault coverFault pdfFile none formData id s).1.books
        = pre ++ b2 :: post ∧ b2.id = b.id ∧ b2.coverId = b.coverId) ∧
      (submitEdit env pdfFault coverFault pdfFile none formData id s).1.db.map Db.images
        = s.db.map Db.images := by
  have hfind : s.books.find? (fun x => x.id == id) = some b := by
    rw [hs]
    exact find?_first_match (fun x : Book => x.id == id) b post hb pre hpre
  cases pdfFile with
  | none =>
    have hres : submitEdit env pdfFault coverFault none none formData id s
        = (updateBook id
            (FormData.toPatch { formData with pdfName := b.pdfName, coverId := b.coverId })
            { s with db := s.db }, none) := by
      simp only [submitEdit, hfind]
    have hu := updateBook_with_db id
      (FormData.toPatch { formData with pdfName := b.pdfName, coverId := b.coverId })
      s s.db pre post b hs hpre hb
    rw [hres]
    exact ⟨⟨_, hu.1, rfl, rfl⟩, by rw [hu.2]⟩
  | some f =>
    rcases storePDF_cases pdfFault env.newDate id f s.db with ⟨e, he⟩ | ⟨d, hd, -, hok⟩
    · have hres : submitEdit env pdfFault coverFault (some f) none formData id s
          = ({ s with db := s.db }, some id) := by
        simp only [submitEdit, hfind, he, Except.map]
      rw [hres]
      exact ⟨⟨b, hs, rfl, rfl⟩, rfl⟩
    · have hres : submitEdit env pdfFault coverFault (some f) none formData id s
          = (updateBook id (FormData.toPatch { formData with coverId := b.coverId })
              { s with db := some ⟨storePut PdfRecord.id
                  ⟨id, id, f.name, f.type, f.size, f, env.newDate⟩ d.pdfs, d.images⟩ },
              none) := by
        simp only [submitEdit, hfind, hok, Except.map]
      have hu := updateBook_with_db id
        (FormData.toPatch { formData with coverId := b.coverId })
        s (some ⟨storePut PdfRecord.id
          ⟨id, id, f.name, f.type, f.size, f, env.newDate⟩ d.pdfs, d.images⟩)
        pre post b hs hpre hb
      rw [hres]
      exact ⟨⟨_, hu.1, rfl, rfl⟩, by rw [hu.2, hd]; rfl⟩

/-- The submit handler with a non-empty `editingBookId` either stops at a validation or
runs the edit branch. -/
theorem bookFormSubmit_edit (env : Env) (pdfFault coverFault : Option String)
    (form : BookForm) (id : String) (s : State) (hid : id ≠ "") :
    bookFormSubmit env pdfFault coverFault form (some id) s = (s, some id) ∨
      bookFormSubmit env pdfFault coverFault form (some id) s
        = submitEdit env pdfFault coverFault form.bookPdf form.bookCover
            ⟨jsTrim form.bookTitle, jsTrim form.bookAuthor, form.bookCategory,
              numberOrNull (parseInt form.bookPages), form.bookPdf.map JsFile.name, none⟩
            id s := by
  unfold bookFormSubmit
  simp only []
  split_ifs with h1 h2 h3
  · exact Or.inl rfl
  · exact Or.inl rfl
  · exact Or.inr rfl
  · exact absurd (by simpa using h3) hid

/-- C15: for the book that the edit form is open for (the first one with the identifier
`editingBookId`), a submit without a new PDF file leaves the `pdfName` of the book as it
was and the PDF store, the blob under the identifier of the book included, unchanged and
readable as before; a submit without a new cover image leaves the `coverId` of the book
and the image store unchanged. This holds whether the submit passes the validation and
whether the store requests succeed. -/
theorem edit_without_file_keeps_attachment (env : Env) (pdfFault coverFault : Option String)
    (form : BookForm) (id : String) (s : State) (pre post : List Book) (b : Book)
    (hs : s.books = pre ++ b :: post) (hpre : ∀ x ∈ pre, x.id ≠ id) (hb : b.id = id)
    (hid : id ≠ "") :
    (form.bookPdf = none →
      (∃ b2, (bookFormSubmit env pdfFault coverFault form (some id) s).1.books
          = pre ++ b2 :: post ∧ b2.id = b.id ∧ b2.pdfName = b.pdfName) ∧
        (bookFormSubmit env pdfFault coverFault form (some id) s).1.db.map Db.pdfs
          = s.db.map Db.pdfs ∧
        (∀ fault k, getPDF fault k (bookFormSubmit env pdfFault coverFault form (some id) s).1.db
          = getPDF fault k s.db)) ∧
      (form.bookCover = none →
        (∃ b2, (bookFormSubmit env pdfFault coverFault form (some id) s).1.books
            = pre ++ b2 :: post ∧ b2.id = b.id ∧ b2.coverId = b.coverId) ∧
          (bookFormSubmit env pdfFault coverFault form (some id) s).1.db.map Db.images
            = s.db.map Db.images ∧
          (∀ fault k,
            getImage fault k (bookFormSubmit env pdfFault coverFault form (some id) s).1.db
              = getImage fault k s.db)) := by
  have hpre2 : ∀ x ∈ pre, (x.id == id) = false := fun x hx => by simpa using hpre x hx
  have hb2 : (b.id == id) = true := by simpa using hb
  constructor
  · intro hpdf
    have hmain : (∃ b2, (bookFormSubmit env pdfFault coverFault form (some id) s).1.books
          = pre ++ b2 :: post ∧ b2.id = b.id ∧ b2.pdfName = b.pdfName) ∧
        (bookFormSubmit env pdfFault coverFault form (some id) s).1.db.map Db.pdfs
          = s.db.map Db.pdfs := by
      rcases bookFormSubmit_edit env pdfFault coverFault form id s hid with h | h
      · rw [h]
        exact ⟨⟨b, hs, rfl, rfl⟩, rfl⟩
      · rw [h, hpdf]
        exact submitEdit_without_pdf env pdfFault coverFault form.bookCover _ id s pre post b
          hs hpre2 hb2
    exact ⟨hmain.1, hmain.2, fun fault k => getPDF_congr fault k _ _ hmain.2⟩
  · intro hcover
    have hmain : (∃ b2, (bookFormSubmit env pdfFault coverFault form (some id) s).1.books
          = pre ++ b2 :: post ∧ b2.id = b.id ∧ b2.coverId = b.coverId) ∧
        (bookFormSubmit env pdfFault coverFault form (some id) s).1.db.map Db.images
          = s.db.map Db.images := by
      rcases bookFormSubmit_edit env pdfFault coverFault form id s hid with h | h
      · rw [h]
        exact ⟨⟨b, hs, rfl, rfl⟩, rfl⟩
      · rw [h, hcover]
        exact submitEdit_without_cover env pdfFault coverFault form.bookPdf _ id s pre post b
          hs hpre2 hb2
    exact ⟨hmain.1, hmain.2, fun fault k => getImage_congr fault k _ _ hmain.2⟩

/-- C15, witness: the edit form of the book `b1` of the sample state, submitted without
files. -/
theorem edit_without_file_keeps_attachment_witness :
    (∃ b2, (bookFormSubmit env0 none none plainForm (some "b1") sampleState).1.books
        = [] ++ b2 :: [bookB2] ∧ b2.id = bookB1.id ∧ b2.pdfName = bookB1.pdfName) ∧
      (bookFormSubmit env0 none none plainForm (some "b1") sampleState).1.db.map Db.pdfs
        = sampleState.db.map Db.pdfs ∧
      (∀ fault k,
        getPDF fault k (bookFormSubmit env0 none none plainForm (some "b1") sampleState).1.db
          = getPDF fault k sampleState.db) :=
  (edit_without_file_keeps_attachment env0 none none plainForm "b1" sampleState [] [bookB2]
    bookB1 rfl (by decide) rfl (by decide)).1 rfl

/-- The key of a cover is never the empty string. -/
theorem coverKey_ne_empty (id : String) : coverKey id ≠ "" := by
  intro h
  have hlen := congrArg String.length h
  simp only [coverKey, String.length_append] at hlen
  have h6 : "cover_".length = 6 := by decide
  have h0 : "".length = 0 := by decide
  omega

/-- The submit handler on files that pass the validation runs the edit branch when
`editingBookId` is a non-empty string and the add branch when it is `null`. -/
theorem bookFormSubmit_valid (env : Env) (pdfFault coverFault : Option String)
    (form : BookForm) (s : State) (hvalid : FilesValid form) :
    (∀ id, id ≠ "" →
      bookFormSubmit env pdfFault coverFault form (some id) s
        = submitEdit env pdfFault coverFault form.bookPdf form.bookCover
            ⟨jsTrim form.bookTitle, jsTrim form.bookAuthor, form.bookCategory,
              numberOrNull (parseInt form.bookPages), form.bookPdf.map JsFile.name, none⟩
            id s) ∧
      bookFormSubmit env pdfFault coverFault form none s
        = submitAdd env pdfFault coverFault form.bookPdf form.bookCover
            ⟨jsTrim form.bookTitle, jsTrim form.bookAuthor, form.bookCategory,
              numberOrNull (parseInt form.bookPages), form.bookPdf.map JsFile.name, none⟩
            none s := by
  have h1 : (match form.bookPdf with
      | some f => f.type != "application/pdf"
      | none => false) = false := by
    cases hp : form.bookPdf with
    | none => rfl
    | some f => simp [hvalid.1 f hp]
  have h2 : (match form.bookCover with
      | some f => !("image/".data.isPrefixOf f.type.data) || decide (f.size > 2 * 1024 * 1024)
      | none => false) = false := by
    cases hc : form.bookCover with
    | none => rfl
    | some f =>
      have hv := hvalid.2 f hc
      simp only [hv.1, Bool.not_true, Bool.false_or, decide_eq_false_iff_not, not_lt]
      exact hv.2
  constructor
  · intro id hid
    unfold bookFormSubmit
    simp only [h1, h2, Bool.false_eq_true, if_false]
    simp [hid]
  · unfold bookFormSubmit
    simp only [h1, h2, Bool.false_eq_true, if_false]

/-- The edit branch when the database is open and the store requests succeed. -/
theorem submitEdit_success (env : Env) (pdfFile coverFile : Option JsFile)
    (formData : FormData) (id : String) (s : State) (d : Db) (b : Book)
    (hdb : s.db = some d) (hfind : s.books.find? (fun x => x.id == id) = some b) :
    submitEdit env none none pdfFile coverFile formData id s
      = (updateBook id
          (FormData.toPatch
            ⟨formData.title, formData.author, formData.category, formData.pages,
              (match pdfFile with
                | some _ => formData.pdfName
                | none => b.pdfName),
              (match coverFile with
                | some _ => some (coverKey id)
                | none => b.coverId)⟩)
          { s with db := some (Db.mk
              (match pdfFile with
                | some p => storePut PdfRecord.id
                    ⟨id, id, p.name, p.type, p.size, p, env.newDate⟩ d.pdfs
                | none => d.pdfs)
              (match coverFile with
                | some c => storePut ImageRecord.id
                    ⟨coverKey id, c.name, c.type, c, env.newDate⟩ d.images
                | none => d.images)) },
          none) := by
  cases pdfFile <;> cases coverFile <;>
    simp [submitEdit, hfind, hdb, storePDF, storeImage, Except.map]

/-- The add branch when the database is open and the store requests succeed. -/
theorem submitAdd_success (env : Env) (pdfFile coverFile : Option JsFile)
    (formData : FormData) (s : State) (d : Db) (hdb : s.db = some d) :
    submitAdd env none none pdfFile coverFile formData none s
      = (addBook env
          ⟨some (generateId env), formData.title, formData.author, formData.category,
            formData.pages, formData.pdfName,
            (match coverFile with
              | some _ => some (coverKey (generateId env))
              | none => formData.coverId), none⟩
          { s with db := some (Db.mk
              (match pdfFile with
                | some p => storePut PdfRecord.id
                    ⟨generateId env, generateId env, p.name, p.type, p.size, p, env.newDate⟩
                    d.pdfs
                | none => d.pdfs)
              (match coverFile with
                | some c => storePut ImageRecord.id
                    ⟨coverKey (generateId env), c.name, c.type, c, env.newDate⟩ d.images
                | none => d.images)) },
          none) := by
  cases pdfFile <;> cases coverFile <;>
    simp [submitAdd, hdb, storePDF, storeImage, Except.map]

/-- C16: when the database is open, the store requests succeed and the files pass the
validation, a submit of the edit form of the book `id` (first part) and a submit of the
add form, where `id` is the generated identifier (second part), store a supplied cover in
the image store under exactly the key `cover_` followed by `id`, as the only record under
that key, and set the `coverId` of the book to that key; they store a supplied PDF in the
PDF store under exactly the key `id`, as the only record under that key, and set the
`pdfName` of the book to the name of the file (on add: a non-empty name, as every chosen
file has). The key of the cover is computed from the identifier alone. -/
theorem form_stores_under_derived_keys (env : Env) (form : BookForm) (s : State) (d : Db)
    (hdb : s.db = some d) (hvalid : FilesValid form) :
    (∀ id pre b post, s.books = pre ++ b :: post → (∀ x ∈ pre, x.id ≠ id) → b.id = id →
      id ≠ "" →
      ∃ d2 b2, (bookFormSubmit env none none form (some id) s).1.db = some d2 ∧
        (bookFormSubmit env none none form (some id) s).1.books = pre ++ b2 :: post ∧
        b2.id = id ∧
        (∀ c, form.bookCover = some c →
          getImage none (coverKey id) (some d2)
            = .ok (some ⟨coverKey id, c.name, c.type, c, env.newDate⟩) ∧
          d2.images.filter (fun r => r.id == coverKey id)
            = [⟨coverKey id, c.name, c.type, c, env.newDate⟩] ∧
          b2.coverId = some (coverKey id)) ∧
        (∀ p, form.bookPdf = some p →
          getPDF none id (some d2)
            = .ok (some ⟨id, id, p.name, p.type, p.size, p, env.newDate⟩) ∧
          d2.pdfs.filter (fun r => r.id == id)
            = [⟨id, id, p.name, p.type, p.size, p, env.newDate⟩] ∧
          b2.pdfName = some p.name)) ∧
      (∃ d2 b2, (bookFormSubmit env none none form none s).1.db = some d2 ∧
        (bookFormSubmit env none none form none s).1.books = b2 :: s.books ∧
        b2.id = generateId env ∧
        (∀ c, form.bookCover = some c →
          getImage none (coverKey b2.id) (some d2)
            = .ok (some ⟨coverKey b2.id, c.name, c.type, c, env.newDate⟩) ∧
          d2.images.filter (fun r => r.id == coverKey b2.id)
            = [⟨coverKey b2.id, c.name, c.type, c, env.newDate⟩] ∧
          b2.coverId = some (coverKey b2.id)) ∧
        (∀ p, form.bookPdf = some p →
          getPDF none b2.id (some d2)
            = .ok (some ⟨b2.id, b2.id, p.name, p.type, p.size, p, env.newDate⟩) ∧
          d2.pdfs.filter (fun r => r.id == b2.id)
            = [⟨b2.id, b2.id, p.name, p.type, p.size, p, env.newDate⟩] ∧
          (p.name ≠ "" → b2.pdfName = some p.name))) ∧
      (∀ id, coverKey id = "cover_" ++ id) := by
  refine ⟨?_, ?_, fun _ => rfl⟩
  · intro id pre b post hs hpre hb hid
    have hpre2 : ∀ x ∈ pre, (x.id == id) = false := fun x hx => by simpa using hpre x hx
    have hb2 : (b.id == id) = true := by simpa using hb
    have hfind : s.books.find? (fun x => x.id == id) = some b := by
      rw [hs]
      exact find?_first_match (fun x : Book => x.id == id) b post hb2 pre hpre2
    rw [(bookFormSubmit_valid env none none form s hvalid).1 id hid,
      submitEdit_success env form.bookPdf form.bookCover _ id s d b hdb hfind]
    refine ⟨_, _, (updateBook_with_db id _ s _ pre post b hs hpre2 hb2).2,
      (updateBook_with_db id _ s _ pre post b hs hpre2 hb2).1, ?_, ?_, ?_⟩
    · simp only [mergeBook, FormData.toPatch, Option.getD_none]
      exact hb
    · intro c hc
      simp only [hc]
      exact ⟨congrArg Except.ok (storeGet_storePut_self ImageRecord.id _ d.images),
        storePut_unique ImageRecord.id ⟨coverKey id, c.name, c.type, c, env.newDate⟩ d.images,
        rfl⟩
    · intro p hp
      simp only [hp]
      exact ⟨congrArg Except.ok (storeGet_storePut_self PdfRecord.id _ d.pdfs),
        storePut_unique PdfRecord.id ⟨id, id, p.name, p.type, p.size, p, env.newDate⟩ d.pdfs,
        rfl⟩
  · rw [(bookFormSubmit_valid env none none form s hvalid).2,
      submitAdd_success env form.bookPdf form.bookCover _ s d hdb]
    have hidnew : ∀ data : BookData, data.id = some (generateId env) →
        (newBook env data).id = generateId env := by
      intro data hdata
      by_cases he : generateId env = "" <;> simp [newBook, orElse, hdata, he]
    refine ⟨_, _, rfl, rfl, hidnew _ rfl, ?_, ?_⟩
    · intro c hc
      rw [hidnew _ rfl]
      simp only [hc]
      refine ⟨congrArg Except.ok (storeGet_storePut_self ImageRecord.id _ d.images),
        storePut_unique ImageRecord.id
          ⟨coverKey (generateId env), c.name, c.type, c, env.newDate⟩ d.images, ?_⟩
      simp [newBook, orNull, truthy, coverKey_ne_empty]
    · intro p hp
      rw [hidnew _ rfl]
      simp only [hp]
      refine ⟨congrArg Except.ok (storeGet_storePut_self PdfRecord.id _ d.pdfs),
        storePut_unique PdfRecord.id
          ⟨generateId env, generateId env, p.name, p.type, p.size, p, env.newDate⟩ d.pdfs, ?_⟩
      intro hne
      simp [newBook, orNull, truthy, hne]

/-- C16, witness: the add form and the edit form of the book `b2`, each with a PDF and a
cover, on the sample state. -/
theorem form_stores_under_derived_keys_witness :
    (∃ d2 b2, (bookFormSubmit env0 none none fileForm (some "b2") sampleState).1.db = some d2 ∧
        (bookFormSubmit env0 none none fileForm (some "b2") sampleState).1.books
          = [bookB1] ++ b2 :: [] ∧
        b2.id = "b2" ∧
        (∀ c, fileForm.bookCover = some c →
          getImage none (coverKey "b2") (some d2)
            = .ok (some ⟨coverKey "b2", c.name, c.type, c, env0.newDate⟩) ∧
          d2.images.filter (fun r => r.id == coverKey "b2")
            = [⟨coverKey "b2", c.name, c.type, c, env0.newDate⟩] ∧
          b2.coverId = some (coverKey "b2")) ∧
        (∀ p, fileForm.bookPdf = some p →
          getPDF none "b2" (some d2)
            = .ok (some ⟨"b2", "b2", p.name, p.type, p.size, p, env0.newDate⟩) ∧
          d2.pdfs.filter (fun r => r.id == "b2")
            = [⟨"b2", "b2", p.name, p.type, p.size, p, env0.newDate⟩] ∧
          b2.pdfName = some p.name)) ∧
      (bookFormSubmit env0 none none fileForm none sampleState).1.books
        = [⟨"0", "Emma", "Austen", "fiction", none, some "dune.pdf", some "cover_0", false, 0⟩,
            bookB1, bookB2] :=
  ⟨(form_stores_under_derived_keys env0 fileForm sampleState sampleDb rfl
      ⟨fun p hp => by cases hp; rfl,
        fun c hc => by cases hc; exact ⟨by decide, by decide⟩⟩).1
      "b2" [bookB1] bookB2 [] rfl (by decide) rfl (by decide),
    by decide⟩

/-! ## Login -/

/-- The login handler on a pair that matches the profile. -/
theorem loginSubmit_accept (email password : String) (a : Account)
    (h : email ≠ "" ∧ password ≠ "" ∧ email = (loginProfile a).email ∧
      password = (loginProfile a).password) :
    loginSubmit email password a
      = (true, { a with
          lsCurrentUser := some (Session.mk (loginProfile a).email (loginProfile a).fullName) })
        := by
  obtain ⟨h1, h2, h3, h4⟩ := h
  have c1 : (email != "" && password != "") = true := by
    rw [Bool.and_eq_true]
    exact ⟨by simpa using h1, by simpa using h2⟩
  have c2 : (email == (loginProfile a).email && password == (loginProfile a).password)
      = true := by
    rw [Bool.and_eq_true]
    exact ⟨by simpa using h3, by simpa using h4⟩
  simp only [loginSubmit, c1, c2, if_true]

/-- The login handler on every other pair. -/
theorem loginSubmit_reject (email password : String) (a : Account)
    (h : ¬ (email ≠ "" ∧ password ≠ "" ∧ email = (loginProfile a).email ∧
      password = (loginProfile a).password)) :
    loginSubmit email password a = (false, a) := by
  unfold loginSubmit
  cases c1 : (email != "" && password != "") with
  | false => simp
  | true =>
    cases c2 : (email == (loginProfile a).email && password == (loginProfile a).password) with
    | false => simp [c2]
    | true =>
      exfalso
      rw [Bool.and_eq_true] at c1 c2
      exact h ⟨by simpa using c1.1, by simpa using c1.2, by simpa using c2.1,
        by simpa using c2.2⟩

/-- C20: the login handler accepts, and writes a session record, exactly when the email
and the password are both non-empty and equal those of the stored profile (of the
built-in profile when none is stored). The record written has the email and the full name
of that profile; on every other input the storage, the session with it, is unchanged. The
pair `admin@bookshelf.com` and `admin123` is accepted when no profile is stored, and
when the stored profile is the initial one, and gives a session with that email. -/
theorem login_writes_session_iff (email password : String) (a : Account) :
    ((loginSubmit email password a).1 = true ↔
        email ≠ "" ∧ password ≠ "" ∧ email = (loginProfile a).email ∧
          password = (loginProfile a).password) ∧
      ((loginSubmit email password a).1 = true →
        (loginSubmit email password a).2.lsCurrentUser
            = some ⟨(loginProfile a).email, (loginProfile a).fullName⟩ ∧
          (loginSubmit email password a).2.lsAdminProfile = a.lsAdminProfile ∧
          (loginSubmit email password a).2.adminProfile = a.adminProfile) ∧
      ((loginSubmit email password a).1 = false → (loginSubmit email password a).2 = a) ∧
      (∀ p, a.lsAdminProfile = some p → loginProfile a = ⟨p.email, p.password, p.fullName⟩) ∧
      (a.lsAdminProfile = none →
        loginProfile a = ⟨"admin@bookshelf.com", "admin123", "Admin User"⟩ ∧
        (loginSubmit "admin@bookshelf.com" "admin123" a).2.lsCurrentUser
          = some ⟨"admin@bookshelf.com", "Admin User"⟩) ∧
      (a.lsAdminProfile = some defaultAdminProfile →
        (loginSubmit "admin@bookshelf.com" "admin123" a).2.lsCurrentUser
          = some ⟨"admin@bookshelf.com", "Admin User"⟩) := by
  have hcases : (email ≠ "" ∧ password ≠ "" ∧ email = (loginProfile a).email ∧
        password = (loginProfile a).password) ∨
      ¬ (email ≠ "" ∧ password ≠ "" ∧ email = (loginProfile a).email ∧
        password = (loginProfile a).password) := Classical.em _
  refine ⟨?_, ?_, ?_, ?_, ?_, ?_⟩
  · rcases hcases with h | h
    · rw [loginSubmit_accept email password a h]
      exact ⟨fun _ => h, fun _ => rfl⟩
    · rw [loginSubmit_reject email password a h]
      exact ⟨fun hf => (by cases hf), fun hh => absurd hh h⟩
  · rcases hcases with h | h
    · rw [loginSubmit_accept email password a h]
      exact fun _ => ⟨rfl, rfl, rfl⟩
    · rw [loginSubmit_reject email password a h]
      exact fun hf => by cases hf
  · rcases hcases with h | h
    · rw [loginSubmit_accept email password a h]
      exact fun hf => by cases hf
    · rw [loginSubmit_reject email password a h]
      exact fun _ => rfl
  · intro p hp
    simp [loginProfile, hp]
  · intro hnone
    have hp : loginProfile a = ⟨"admin@bookshelf.com", "admin123", "Admin User"⟩ := by
      simp [loginProfile, hnone]
    refine ⟨hp, ?_⟩
    simp [loginSubmit, hp]
  · intro hsome
    have hp : loginProfile a = ⟨"admin@bookshelf.com", "admin123", "Admin User"⟩ := by
      simp [loginProfile, hsome, defaultAdminProfile]
    simp [loginSubmit, hp]

/-- C20, witness: in a browser that has never opened the application the built-in pair is
accepted and a wrong password is not; the same after `loadAdminProfile` has stored the
initial profile. -/
theorem login_writes_session_iff_witness :
    (loginSubmit "admin@bookshelf.com" "admin123" freshAccount).1 = true ∧
      (loginSubmit "admin@bookshelf.com" "admin123" freshAccount).2.lsCurrentUser
        = some ⟨"admin@bookshelf.com", "Admin User"⟩ ∧
      (loginSubmit "admin@bookshelf.com" "admin124" freshAccount).2 = freshAccount ∧
      (loginSubmit "admin@bookshelf.com" "admin123" (loadAdminProfile freshAccount)).2.lsCurrentUser
        = some ⟨"admin@bookshelf.com", "Admin User"⟩ :=
  ⟨(login_writes_session_iff "admin@bookshelf.com" "admin123" freshAccount).1.mpr
      ⟨by decide, by decide, by decide, by decide⟩,
    ((login_writes_session_iff "admin@bookshelf.com" "admin123" freshAccount).2.2.2.2.1
      rfl).2,
    (login_writes_session_iff "admin@bookshelf.com" "admin124" freshAccount).2.2.1
      (by decide),
    (login_writes_session_iff "admin@bookshelf.com" "admin123"
      (loadAdminProfile freshAccount)).2.2.2.2.2 rfl⟩

/-! ## The page count -/

/-- The edit branch either leaves the book list as it is or ends in `updateBook` with an
object whose `pages` is that of `formData`. -/
theorem submitEdit_result (env : Env) (pdfFault coverFault : Option String)
    (pdfFile coverFile : Option JsFile) (formData : FormData) (id : String) (s : State) :
    (submitEdit env pdfFault coverFault pdfFile coverFile formData id s).1.books = s.books ∨
      ∃ fd db, (submitEdit env pdfFault coverFault pdfFile coverFile formData id s).1
          = updateBook id (FormData.toPatch fd) { s with db := db } ∧
        fd.pages = formData.pages := by
  cases hb : s.books.find? (fun b => b.id == id) <;> cases pdfFile <;> cases coverFile <;>
    cases hdb : s.db <;> cases pdfFault <;> cases coverFault <;>
    simp only [submitEdit, hb, hdb, storePDF, storeImage, Except.map] <;>
    first
      | exact Or.inl rfl
      | exact Or.inl trivial
      | exact Or.inr ⟨_, _, rfl, rfl⟩

/-- The add branch either leaves the book list as it is or ends in `addBook` with an
object whose `pages` is that of `formData`. -/
theorem submitAdd_result (env : Env) (pdfFault coverFault : Option String)
    (pdfFile coverFile : Option JsFile) (formData : FormData)
    (editingBookId : Option String) (s : State) :
    (submitAdd env pdfFault coverFault pdfFile coverFile formData editingBookId s).1.books
        = s.books ∨
      ∃ data db,
        (submitAdd env pdfFault coverFault pdfFile coverFile formData editingBookId s).1
          = addBook env data { s with db := db } ∧
        data.pages = formData.pages := by
  cases pdfFile <;> cases coverFile <;>
    cases hdb : s.db <;> cases pdfFault <;> cases coverFault <;>
    simp only [submitAdd, hdb, storePDF, storeImage, Except.map] <;>
    first
      | exact Or.inl rfl
      | exact Or.inl trivial
      | exact Or.inr ⟨_, _, rfl, rfl⟩

/-- The submit handler without a non-empty `editingBookId` either stops at a validation or
runs the add branch. -/
theorem bookFormSubmit_add (env : Env) (pdfFault coverFault : Option String)
    (form : BookForm) (editingBookId : Option String) (s : State)
    (hadd : truthy editingBookId = false) :
    bookFormSubmit env pdfFault coverFault form editingBookId s = (s, editingBookId) ∨
      bookFormSubmit env pdfFault coverFault form editingBookId s
        = submitAdd env pdfFault coverFault form.bookPdf form.bookCover
            ⟨jsTrim form.bookTitle, jsTrim form.bookAuthor, form.bookCategory,
              numberOrNull (parseInt form.bookPages), form.bookPdf.map JsFile.name, none⟩
            editingBookId s := by
  unfold bookFormSubmit
  simp only []
  split_ifs with h1 h2
  · exact Or.inl rfl
  · exact Or.inl rfl
  · right
    cases editingBookId with
    | none => rfl
    | some id =>
      have hid : id = "" := by simpa [truthy] using hadd
      simp [hid]

/-- The value `n || null` is `null`, an integer other than zero or an infinity. -/
theorem numberOrNull_cases (v : Option JsNumber) :
    numberOrNull v = none ∨ (∃ n : Int, n ≠ 0 ∧ numberOrNull v = some (.int n)) ∨
      numberOrNull v = some .posInf ∨ numberOrNull v = some .negInf := by
  cases v with
  | none => exact Or.inl rfl
  | some x =>
    cases x with
    | int n =>
      by_cases h : n = 0
      · left
        simp [numberOrNull, h]
      · right
        left
        exact ⟨n, h, by simp [numberOrNull, h]⟩
    | posInf => exact Or.inr (Or.inr (Or.inl rfl))
    | negInf => exact Or.inr (Or.inr (Or.inr rfl))

/-- An integer below `2 ^ k` has at most `k` binary digits. -/
theorem bitLength_le (fuel : Nat) : ∀ n k : Nat, n < 2 ^ k → bitLength fuel n ≤ k := by
  induction fuel with
  | zero =>
    intro n k _
    exact Nat.zero_le k
  | succ fuel ih =>
    intro n k h
    unfold bitLength
    by_cases h0 : n = 0
    · simp [h0]
    · rw [if_neg h0]
      cases k with
      | zero =>
        simp at h
        exact absurd h h0
      | succ k =>
        have h2 : n / 2 < 2 ^ k := by
          rw [Nat.div_lt_iff_lt_mul (by decide : 0 < 2)]
          rw [pow_succ] at h
          exact h
        exact Nat.succ_le_succ (ih (n / 2) k h2)

/-- The Number value of an integer below `2 ^ 53` is that integer. -/
theorem toDouble_exact (n : Nat) (h : n < 2 ^ 53) : toDouble n = .int n := by
  have hthr : ¬ infinityThreshold ≤ n := by
    have h1 : 2 ^ 53 ≤ infinityThreshold := by
      unfold infinityThreshold
      norm_num
    omega
  have hbits : bitLength 1024 n ≤ 53 := bitLength_le 1024 n 53 h
  simp [toDouble, hthr, roundHalfEven, hbits]

/-- The Number value of a non-negative integer is a non-negative integer or `Infinity`. -/
theorem toDouble_cases (n : Nat) :
    (∃ m : Nat, toDouble n = .int m) ∨ toDouble n = .posInf := by
  unfold toDouble
  split
  · exact Or.inr rfl
  · exact Or.inl ⟨_, rfl⟩

/-- Without a minus sign at its front a numeral is not negated. -/
theorem readSign_unsigned (s0 : List Char) (h : ∀ r, s0 ≠ '-' :: r) :
    (readSign s0).1 = false := by
  unfold readSign
  split
  · exact absurd rfl (h _)
  · rfl
  · rfl

/-- Without a minus sign `parseInt` gives `NaN`, a non-negative integer or `Infinity`. -/
theorem parseInt_unsigned (string : String)
    (h : ∀ r, string.data.dropWhile isJsWhiteSpace ≠ '-' :: r) :
    parseInt string = none ∨ (∃ m : Nat, parseInt string = some (.int m)) ∨
      parseInt string = some .posInf := by
  unfold parseInt
  simp only [readSign_unsigned _ h, Bool.false_eq_true, if_false]
  cases readDigits (readSign (string.data.dropWhile isJsWhiteSpace)).2 with
  | none => exact Or.inl rfl
  | some mathInt =>
    rcases toDouble_cases mathInt with ⟨m, hm⟩ | hm
    · exact Or.inr (Or.inl ⟨m, by simp only [hm]⟩)
    · exact Or.inr (Or.inr (by simp only [hm]))

/-- The numeral of 400 digits is beyond the range of the doubles. -/
theorem parseInt_hugeNumeral : parseInt hugeNumeral = some .posInf := by
  set_option maxRecDepth 8000 in
  decide

/-- C24, counterexample: with `-5` in the page-count field the add form and the edit form
record the page count `-5`, and with a numeral of 400 digits the add form records
`Infinity`; neither is absent or a positive integer. -/
theorem negative_page_count_recorded :
    (bookFormSubmit env0 none none negativePagesForm none sampleState).1.books.map Book.pages
        = [some (.int (-5)), some (.int 612), none] ∧
      (bookFormSubmit env0 none none negativePagesForm (some "b1") sampleState).1.books.map
          Book.pages = [some (.int (-5)), none] ∧
      ¬ ((some (.int (-5)) : Option JsNumber) = none ∨
          ∃ n : Int, 0 < n ∧ (some (.int (-5)) : Option JsNumber) = some (.int n)) ∧
      numberOrNull (parseInt hugePagesForm.bookPages) = some .posInf ∧
      ¬ ((some .posInf : Option JsNumber) = none ∨
          ∃ n : Int, 0 < n ∧ (some .posInf : Option JsNumber) = some (.int n)) := by
  refine ⟨by decide, by decide, ?_, ?_, ?_⟩
  · rintro (h | ⟨n, hn, h⟩)
    · cases h
    · have h5 : (-5 : Int) = n := by
        injection h with h1
        injection h1
      omega
  · show numberOrNull (parseInt hugeNumeral) = some .posInf
    rw [parseInt_hugeNumeral]
    rfl
  · rintro (h | ⟨n, -, h⟩)
    · cases h
    · injection h with h1
      cases h1

/-- C24, amended: the page count that the book form records is `parseInt(value) || null`,
which is absent (`null`), an integer other than zero, or an infinity; when the value does
not start, after leading white space, with a minus sign, it is absent, a positive integer
or `Infinity`. A submit of the add form leaves the book list as it is or puts in front a
book with that page count; a submit of the edit form leaves the edited book as it is or
gives it that page count. -/
theorem form_records_null_or_nonzero_pages (env : Env) (pdfFault coverFault : Option String)
    (form : BookForm) (s : State) :
    (numberOrNull (parseInt form.bookPages) = none ∨
        (∃ n : Int, n ≠ 0 ∧ numberOrNull (parseInt form.bookPages) = some (.int n)) ∨
        numberOrNull (parseInt form.bookPages) = some .posInf ∨
        numberOrNull (parseInt form.bookPages) = some .negInf) ∧
      ((∀ r, form.bookPages.data.dropWhile isJsWhiteSpace ≠ '-' :: r) →
        numberOrNull (parseInt form.bookPages) = none ∨
        (∃ n : Int, 0 < n ∧ numberOrNull (parseInt form.bookPages) = some (.int n)) ∨
        numberOrNull (parseInt form.bookPages) = some .posInf) ∧
      (∀ editingBookId, truthy editingBookId = false →
        (bookFormSubmit env pdfFault coverFault form editingBookId s).1.books = s.books ∨
        ∃ b2, (bookFormSubmit env pdfFault coverFault form editingBookId s).1.books
            = b2 :: s.books ∧
          b2.pages = numberOrNull (parseInt form.bookPages)) ∧
      (∀ id pre b post, s.books = pre ++ b :: post → (∀ x ∈ pre, x.id ≠ id) → b.id = id →
        id ≠ "" →
        ∃ b2, (bookFormSubmit env pdfFault coverFault form (some id) s).1.books
            = pre ++ b2 :: post ∧
          (b2 = b ∨ b2.pages = numberOrNull (parseInt form.bookPages))) := by
  refine ⟨numberOrNull_cases _, ?_, ?_, ?_⟩
  · intro hsign
    rcases parseInt_unsigned form.bookPages hsign with h | ⟨m, h⟩ | h
    · left
      rw [h]
      rfl
    · rw [h]
      by_cases hm : m = 0
      · left
        simp [numberOrNull, hm]
      · right
        left
        refine ⟨(m : Int), by omega, ?_⟩
        have hne : ¬ ((m : Int) = 0) := by omega
        simp [numberOrNull, hne]
    · right
      right
      rw [h]
      rfl
  · intro editingBookId hadd
    rcases bookFormSubmit_add env pdfFault coverFault form editingBookId s hadd with h | h
    · left
      rw [h]
    · rw [h]
      rcases submitAdd_result env pdfFault coverFault form.bookPdf form.bookCover
          ⟨jsTrim form.bookTitle, jsTrim form.bookAuthor, form.bookCategory,
            numberOrNull (parseInt form.bookPages), form.bookPdf.map JsFile.name, none⟩
          editingBookId s with h2 | ⟨data, db, h2, hpages⟩
      · exact Or.inl h2
      · right
        rw [h2]
        exact ⟨newBook env data, rfl, hpages⟩
  · intro id pre b post hs hpre hb hid
    have hpre2 : ∀ x ∈ pre, (x.id == id) = false := fun x hx => by simpa using hpre x hx
    have hb2 : (b.id == id) = true := by simpa using hb
    rcases bookFormSubmit_edit env pdfFault coverFault form id s hid with h | h
    · rw [h]
      exact ⟨b, hs, Or.inl rfl⟩
    · rw [h]
      rcases submitEdit_result env pdfFault coverFault form.bookPdf form.bookCover
          ⟨jsTrim form.bookTitle, jsTrim form.bookAuthor, form.bookCategory,
            numberOrNull (parseInt form.bookPages), form.bookPdf.map JsFile.name, none⟩
          id s with h2 | ⟨fd, db, h2, hpages⟩
      · exact ⟨b, by rw [h2, hs], Or.inl rfl⟩
      · rw [h2]
        exact ⟨mergeBook b (FormData.toPatch fd),
          (updateBook_with_db id (FormData.toPatch fd) s db pre post b hs hpre2 hb2).1,
          Or.inr hpages⟩

/-- C24, witness: the page count `12` typed into the edit form of the book `b1` is
recorded on that book; the field `12abc` gives the same count, `0` and `pages` give
`null`, and an integer beyond 2^53 is rounded to the nearest double. -/
theorem form_records_null_or_nonzero_pages_witness :
    (∃ b2, (bookFormSubmit env0 none none plainForm (some "b1") sampleState).1.books
        = [] ++ b2 :: [bookB2] ∧
      (b2 = bookB1 ∨ b2.pages = numberOrNull (parseInt plainForm.bookPages))) ∧
      (numberOrNull (parseInt plainForm.bookPages) = none ∨
        (∃ n : Int, 0 < n ∧ numberOrNull (parseInt plainForm.bookPages) = some (.int n)) ∨
        numberOrNull (parseInt plainForm.bookPages) = some .posInf) ∧
      numberOrNull (parseInt "12abc") = some 12 ∧
      numberOrNull (parseInt "0") = none ∧ numberOrNull (parseInt "pages") = none ∧
      numberOrNull (parseInt "9007199254740993") = some (.int 9007199254740992) :=
  ⟨(form_records_null_or_nonzero_pages env0 none none plainForm sampleState).2.2.2
      "b1" [] bookB1 [bookB2] rfl (by decide) rfl (by decide),
    (form_records_null_or_nonzero_pages env0 none none plainForm sampleState).2.1
      (fun r h => by
        have h2 : (plainForm.bookPages.data.dropWhile isJsWhiteSpace).head? = some '-' := by
          rw [h]
          rfl
        exact absurd h2 (by decide)),
    by decide, by decide, by decide, by decide⟩

/-! ## The account form -/

/-- The function `saveAccountData` on a new password that is too short or not confirmed. -/
theorem saveAccountData_reject (formData : AccountForm) (a : Account)
    (hpw : jsTrim formData.password ≠ "")
    (hbad : jsLength (jsTrim formData.password) < 6 ∨
      jsTrim formData.password ≠ jsTrim formData.confirmPassword) :
    saveAccountData formData a = (false, a) := by
  have c1 : (jsTrim formData.password != "") = true := by simpa using hpw
  unfold saveAccountData
  simp only [c1, if_true]
  by_cases hlen : jsLength (jsTrim formData.password) < 6
  · rw [if_pos hlen]
  · rw [if_neg hlen]
    have hne : jsTrim formData.password ≠ jsTrim formData.confirmPassword := by
      rcases hbad with h | h
      · exact absurd h hlen
      · exact h
    have c2 : (jsTrim formData.password != jsTrim formData.confirmPassword) = true := by
      simpa using hne
    rw [if_pos c2]

/-- The function `saveAccountData` when it returns `true`: the password field was left
empty, or the new password has six code units or more and is confirmed. -/
theorem saveAccountData_accept (formData : AccountForm) (a : Account)
    (hacc : (saveAccountData formData a).1 = true) :
    (jsTrim formData.password = "" ∧
        saveAccountData formData a = (true, updateProfile formData a.adminProfile a)) ∨
      (jsTrim formData.password ≠ "" ∧ 6 ≤ jsLength (jsTrim formData.password) ∧
        jsTrim formData.password = jsTrim formData.confirmPassword ∧
        saveAccountData formData a
          = (true, updateProfile formData
              { a.adminProfile with password := jsTrim formData.password } a)) := by
  by_cases hpw : jsTrim formData.password = ""
  · left
    refine ⟨hpw, ?_⟩
    simp [saveAccountData, hpw]
  · right
    by_cases hbad : jsLength (jsTrim formData.password) < 6 ∨
        jsTrim formData.password ≠ jsTrim formData.confirmPassword
    · rw [saveAccountData_reject formData a hpw hbad] at hacc
      cases hacc
    · have hlen : ¬ jsLength (jsTrim formData.password) < 6 := fun h => hbad (Or.inl h)
      have heq : jsTrim formData.password = jsTrim formData.confirmPassword := by
        by_contra h
        exact hbad (Or.inr h)
      have c1 : (jsTrim formData.password != "") = true := by simpa using hpw
      have c2 : (jsTrim formData.password != jsTrim formData.confirmPassword) = false := by
        simpa using heq
      refine ⟨hpw, by omega, heq, ?_⟩
      unfold saveAccountData
      simp only [c1, if_true, if_neg hlen, c2, Bool.false_eq_true, if_false]

/-- The stored profile and the stored session after `updateProfile`. -/
theorem updateProfile_stored (formData : AccountForm) (profile : AdminProfile)
    (a : Account) :
    (updateProfile formData profile a).lsAdminProfile
        = some ⟨jsTrim formData.username, jsTrim formData.fullName, jsTrim formData.email,
            profile.contact, profile.password, profile.avatarId,
            if truthy profile.role then profile.role else some "Administrator"⟩ ∧
      (updateProfile formData profile a).adminProfile
        = ⟨jsTrim formData.username, jsTrim formData.fullName, jsTrim formData.email,
            profile.contact, profile.password, profile.avatarId,
            if truthy profile.role then profile.role else some "Administrator"⟩ ∧
      (updateProfile formData profile a).lsCurrentUser
        = a.lsCurrentUser.map
            (fun _ => Session.mk (jsTrim formData.email) (jsTrim formData.fullName)) := by
  cases h : a.lsCurrentUser <;> simp [updateProfile, saveAdminProfile, h]

/-- C21: when the trimmed password is non-empty and either has fewer than 6 code units or
differs from the trimmed confirmation, `saveAccountData` returns `false` and the profile
in memory, the stored profile and the stored session are all exactly as before. -/
theorem saveAccountData_invalid_password_changes_nothing (formData : AccountForm)
    (a : Account) (hpw : jsTrim formData.password ≠ "")
    (hbad : jsLength (jsTrim formData.password) < 6 ∨
      jsTrim formData.password ≠ jsTrim formData.confirmPassword) :
    (saveAccountData formData a).1 = false ∧
      (saveAccountData formData a).2.adminProfile = a.adminProfile ∧
      (saveAccountData formData a).2.lsAdminProfile = a.lsAdminProfile ∧
      (saveAccountData formData a).2.lsCurrentUser = a.lsCurrentUser ∧
      (saveAccountData formData a).2 = a := by
  rw [saveAccountData_reject formData a hpw hbad]
  exact ⟨rfl, rfl, rfl, rfl, rfl⟩

/-- C21, witness: a password of five characters, and a confirmation that differs, both
with a new username, full name and email in the form. -/
theorem saveAccountData_invalid_password_changes_nothing_witness :
    ((saveAccountData shortPasswordForm signedInAccount).1 = false ∧
        (saveAccountData shortPasswordForm signedInAccount).2.adminProfile
          = signedInAccount.adminProfile ∧
        (saveAccountData shortPasswordForm signedInAccount).2.lsAdminProfile
          = signedInAccount.lsAdminProfile ∧
        (saveAccountData shortPasswordForm signedInAccount).2.lsCurrentUser
          = signedInAccount.lsCurrentUser ∧
        (saveAccountData shortPasswordForm signedInAccount).2 = signedInAccount) ∧
      (saveAccountData mismatchForm signedInAccount).2 = signedInAccount :=
  ⟨saveAccountData_invalid_password_changes_nothing shortPasswordForm signedInAccount
      (by decide) (Or.inl (by decide)),
    (saveAccountData_invalid_password_changes_nothing mismatchForm signedInAccount
      (by decide) (Or.inr (by decide))).2.2.2.2⟩

/-- C22, counterexample: an accepted edit of the full name changes the display name of the
stored session from `Admin User` to `Ada Admin`. -/
theorem saveAccountData_changes_session :
    (saveAccountData renameForm signedInAccount).1 = true ∧
      signedInAccount.lsCurrentUser = some ⟨"admin@bookshelf.com", "Admin User"⟩ ∧
      (saveAccountData renameForm signedInAccount).2.lsCurrentUser
        = some ⟨"admin@bookshelf.com", "Ada Admin"⟩ ∧
      (saveAccountData renameForm signedInAccount).2.lsCurrentUser
        ≠ signedInAccount.lsCurrentUser := by
  decide

/-- C22, amended: every profile edit that `saveAccountData` accepts writes the new
trimmed email and the new trimmed full name of the profile into a stored session, so the
session is as before exactly when it already had that email and that name; when no session
is stored, none is created. -/
theorem saveAccountData_syncs_session (formData : AccountForm) (a : Account)
    (hacc : (saveAccountData formData a).1 = true) :
    (∀ cu, a.lsCurrentUser = some cu →
        (saveAccountData formData a).2.lsCurrentUser
            = some ⟨jsTrim formData.email, jsTrim formData.fullName⟩ ∧
          ((saveAccountData formData a).2.lsCurrentUser = a.lsCurrentUser ↔
            cu.email = jsTrim formData.email ∧ cu.name = jsTrim formData.fullName)) ∧
      (a.lsCurrentUser = none → (saveAccountData formData a).2.lsCurrentUser = none) := by
  have hsession : (saveAccountData formData a).2.lsCurrentUser
      = a.lsCurrentUser.map
          (fun _ => Session.mk (jsTrim formData.email) (jsTrim formData.fullName)) := by
    rcases saveAccountData_accept formData a hacc with ⟨-, h⟩ | ⟨-, -, -, h⟩
    · rw [h]
      exact (updateProfile_stored formData _ a).2.2
    · rw [h]
      exact (updateProfile_stored formData _ a).2.2
  constructor
  · intro cu hcu
    rw [hsession, hcu]
    refine ⟨rfl, ?_⟩
    simp only [Option.map_some', Option.some.injEq]
    constructor
    · intro h
      rw [← h]
      exact ⟨rfl, rfl⟩
    · rintro ⟨h1, h2⟩
      cases cu
      simp_all
  · intro hnone
    rw [hsession, hnone]
    rfl

/-- C22, witness: the accepted edit of the full name on a storage with a session. -/
theorem saveAccountData_syncs_session_witness :
    (∀ cu, signedInAccount.lsCurrentUser = some cu →
        (saveAccountData renameForm signedInAccount).2.lsCurrentUser
            = some ⟨jsTrim renameForm.email, jsTrim renameForm.fullName⟩ ∧
          ((saveAccountData renameForm signedInAccount).2.lsCurrentUser
              = signedInAccount.lsCurrentUser ↔
            cu.email = jsTrim renameForm.email ∧ cu.name = jsTrim renameForm.fullName)) ∧
      (signedInAccount.lsCurrentUser = none →
        (saveAccountData renameForm signedInAccount).2.lsCurrentUser = none) :=
  saveAccountData_syncs_session renameForm signedInAccount (by decide)

/-- C25, counterexample: `saveAccountData` accepts a new password typed with a blank
before and after it, a new password with an empty email, and password fields that hold
three blanks, for which it keeps the old password; a login that submits the email and the
password exactly as typed is refused in the three cases, and in the third the login that
submits the trimmed password is refused too. -/
theorem login_as_typed_refused :
    (saveAccountData paddedPasswordForm signedInAccount).1 = true ∧
      (loginSubmit paddedPasswordForm.email paddedPasswordForm.password
        (saveAccountData paddedPasswordForm signedInAccount).2).1 = false ∧
      (saveAccountData emptyEmailForm signedInAccount).1 = true ∧
      (loginSubmit emptyEmailForm.email emptyEmailForm.password
        (saveAccountData emptyEmailForm signedInAccount).2).1 = false ∧
      blankPasswordForm.password ≠ "" ∧
      (saveAccountData blankPasswordForm signedInAccount).1 = true ∧
      (loginProfile (saveAccountData blankPasswordForm signedInAccount).2).password
        = defaultAdminProfile.password ∧
      (loginSubmit blankPasswordForm.email blankPasswordForm.password
        (saveAccountData blankPasswordForm signedInAccount).2).1 = false ∧
      (loginSubmit (jsTrim blankPasswordForm.email) (jsTrim blankPasswordForm.password)
        (saveAccountData blankPasswordForm signedInAccount).2).1 = false := by
  decide

/-- C25, amended: after `saveAccountData` has accepted a form with a new password that
is non-empty after trimming and an email that is non-empty after trimming, a login that
submits the trimmed email and the trimmed password is accepted and writes a session with
that email; these are the email and the password as typed when they were typed without
surrounding white space. -/
theorem login_after_saveAccountData (formData : AccountForm) (a : Account)
    (hacc : (saveAccountData formData a).1 = true)
    (hpw : jsTrim formData.password ≠ "") (hemail : jsTrim formData.email ≠ "") :
    (loginSubmit (jsTrim formData.email) (jsTrim formData.password)
        (saveAccountData formData a).2).1 = true ∧
      (loginSubmit (jsTrim formData.email) (jsTrim formData.password)
        (saveAccountData formData a).2).2.lsCurrentUser
          = some ⟨jsTrim formData.email, jsTrim formData.fullName⟩ ∧
      (jsTrim formData.email = formData.email → jsTrim formData.password = formData.password →
        (loginSubmit formData.email formData.password (saveAccountData formData a).2).1
          = true) := by
  have hprofile : loginProfile (saveAccountData formData a).2
      = ⟨jsTrim formData.email, jsTrim formData.password, jsTrim formData.fullName⟩ := by
    rcases saveAccountData_accept formData a hacc with ⟨h0, -⟩ | ⟨-, -, -, h⟩
    · exact absurd h0 hpw
    · rw [h]
      simp only [loginProfile, (updateProfile_stored formData _ a).1]
  have hlogin := loginSubmit_accept (jsTrim formData.email) (jsTrim formData.password)
    (saveAccountData formData a).2
    ⟨hemail, hpw, by rw [hprofile], by rw [hprofile]⟩
  refine ⟨by rw [hlogin], ?_, ?_⟩
  · rw [hlogin, hprofile]
  · intro he hp
    rw [← he, ← hp, hlogin]

/-- C25, witness: the new password `secret1` typed with blanks around it is accepted by
`saveAccountData`, and the login with `secret1` succeeds. -/
theorem login_after_saveAccountData_witness :
    (loginSubmit (jsTrim paddedPasswordForm.email) (jsTrim paddedPasswordForm.password)
        (saveAccountData paddedPasswordForm signedInAccount).2).1 = true ∧
      (loginSubmit "admin@bookshelf.com" "secret1"
        (saveAccountData paddedPasswordForm signedInAccount).2).1 = true :=
  ⟨(login_after_saveAccountData paddedPasswordForm signedInAccount (by decide) (by decide)
      (by decide)).1,
    by decide⟩

/-! ## Keys of the two partitions -/

/-- A base-36 digit is not the underscore. -/
theorem digit36_ne_underscore (d : Nat) (h : d < 36) : digit36 d ≠ '_' := by
  interval_cases d <;> decide

/-- The base-36 numeral of a number has no underscore. -/
theorem digits36_no_underscore : ∀ (fuel n : Nat) (acc : List Char),
    (∀ c ∈ acc, c ≠ '_') → ∀ c ∈ digits36 fuel n acc, c ≠ '_'
  | 0, _, acc, hacc => by
    intro c hc
    exact hacc c (by simpa [digits36] using hc)
  | fuel + 1, n, acc, hacc => by
    intro c hc
    unfold digits36 at hc
    by_cases hn : n < 36
    · rw [if_pos hn] at hc
      rcases List.mem_cons.mp hc with rfl | hc
      · exact digit36_ne_underscore n hn
      · exact hacc c hc
    · rw [if_neg hn] at hc
      refine digits36_no_underscore fuel (n / 36) (digit36 (n % 36) :: acc) ?_ c hc
      intro x hx
      rcases List.mem_cons.mp hx with rfl | hx
      · exact digit36_ne_underscore (n % 36) (Nat.mod_lt n (by decide))
      · exact hacc x hx

/-- An identifier made by `generateId` has no underscore. -/
theorem generateId_no_underscore (env : Env) : '_' ∉ (generateId env).data := by
  intro hmem
  simp only [generateId, String.data_append, List.mem_append] at hmem
  rcases hmem with h | h
  · exact digits36_no_underscore (env.dateNow + 1) env.dateNow [] (by simp) '_' h rfl
  · obtain ⟨d, -, hd⟩ := List.mem_map.mp h
    exact digit36_ne_underscore d.val d.isLt hd

/-- C23: an identifier made by `generateId`, which is the key of the PDF of its book,
differs from every key of the image store: from `cover_` followed by any string, so from
the cover key of every generated identifier, and from the avatar key `admin_avatar`. -/
theorem generated_id_not_an_image_key (env : Env) :
    (∀ x : String, generateId env ≠ coverKey x) ∧
      (∀ env2 : Env, generateId env ≠ coverKey (generateId env2)) ∧
      generateId env ≠ avatarKey ∧
      (∀ env2 : Env, coverKey (generateId env2) ≠ avatarKey) := by
  have hcover : ∀ x : String, generateId env ≠ coverKey x := by
    intro x heq
    apply generateId_no_underscore env
    rw [heq]
    simp [coverKey, String.data_append]
  refine ⟨hcover, fun env2 => hcover _, ?_, ?_⟩
  · intro heq
    apply generateId_no_underscore env
    rw [heq]
    decide
  · intro env2 heq
    have hlen := congrArg (fun s : String => s.data.take 6) heq
    simp [coverKey, avatarKey, String.data_append] at hlen

end KitabGhar
